import Mathlib

/-!
Shallow embedding of the DraftKings provider of the betting-mkt-data
repository (src/providers/draftkings/parser.py, client.py, mappings.py and
src/core/schemas.py), together with theorems settling the claims about it.

JSON payload fields read with Python's dict.get are embedded as Option-valued
record fields (none = key absent); numeric JSON values that the code only ever
renders into strings (the points of a selection) are embedded by their decimal
rendering.  Python machinery that the code relies on (string truthiness,
str.split, str.replace, substring `in`, datetime.fromisoformat,
urllib.parse.quote_plus/urlencode) is modelled by explicit executable
definitions below, each documented at its definition site.
-/

set_option maxHeartbeats 1000000
set_option maxRecDepth 100000

namespace BettingMkt

/-! ## Data model and operations (all definitions) -/

/-- Truthiness of an optional string in Python: both a missing value (None)
and the empty string are falsy. -/
def opt_falsy : Option String → Bool
  | none => true
  | some s => s = ""

/-- Python's str.lower() restricted to ASCII data (the venueRole strings it
is applied to), i.e. a per-character ASCII lower-casing. -/
def pyLower (s : String) : String :=
  String.mk (s.data.map Char.toLower)

/-- Splitter core for Python's str.split(sep) with a non-empty separator
(here sep = s0 :: ss): scans left to right, cutting at each non-overlapping
occurrence of the separator; acc accumulates the current piece in reverse.
The fuel argument (always called with at least the input length, which the
scan never exceeds) makes the recursion structural, so the function reduces
inside the kernel; the fuel-exhaustion branch is unreachable. -/
def pySplitAux (s0 : Char) (ss : List Char) : Nat → List Char → List Char → List (List Char)
  | _, acc, [] => [acc.reverse]
  | 0, acc, l => [acc.reverse ++ l]
  | fuel + 1, acc, c :: rest =>
    if (s0 :: ss).isPrefixOf (c :: rest) then
      acc.reverse :: pySplitAux s0 ss fuel [] (rest.drop ss.length)
    else
      pySplitAux s0 ss fuel (c :: acc) rest

/-- Python's str.split(sep) for a non-empty separator (the only way the
repository calls it; Python raises on an empty separator, which never
occurs here, so that case is mapped to the identity-like result). -/
def pySplit (sep s : String) : List String :=
  match sep.data with
  | [] => [s]
  | s0 :: ss => (pySplitAux s0 ss s.data.length [] s.data).map String.mk

/-- Python's substring test `sep in s` for a non-empty sep, characterised via
the split: sep occurs in s exactly when splitting on it yields at least two
pieces. -/
def pyContains (sep s : String) : Bool :=
  2 ≤ (pySplit sep s).length

/-- Python's str.replace(old, new) for a non-empty old, which equals
new.join(s.split(old)). -/
def pyReplace (old new s : String) : String :=
  new.intercalate (pySplit old s)

/-- Value of a decimal digit character, none for a non-digit. -/
def digitVal (c : Char) : Option Nat :=
  if c.isDigit then some (c.toNat - 48) else none

/-- Reads exactly two decimal digits from the front of the input. -/
def read2 : List Char → Option (Nat × List Char)
  | a :: b :: rest =>
    match digitVal a, digitVal b with
    | some x, some y => some (10 * x + y, rest)
    | _, _ => none
  | _ => none

/-- Reads exactly four decimal digits from the front of the input. -/
def read4 : List Char → Option (Nat × List Char)
  | a :: b :: c :: d :: rest =>
    match digitVal a, digitVal b, digitVal c, digitVal d with
    | some w, some x, some y, some z => some (1000 * w + 100 * x + 10 * y + z, rest)
    | _, _, _, _ => none
  | _ => none

/-- Microseconds denoted by a non-empty run of fractional-second digits
(digits beyond the sixth are truncated, as in CPython). -/
def fracVal (ds : List Char) : Nat :=
  let d6 := ds.take 6
  (d6.foldl (fun a c => 10 * a + (c.toNat - 48)) 0) * 10 ^ (6 - d6.length)

/-- Gregorian leap-year test. -/
def leapYear (y : Nat) : Bool :=
  (y % 4 = 0 && y % 100 ≠ 0) || y % 400 = 0

/-- Number of days of month m in year y. -/
def daysInMonth (y m : Nat) : Nat :=
  if m = 2 then (if leapYear y then 29 else 28)
  else if m = 4 || m = 6 || m = 9 || m = 11 then 30
  else 31

/-- Result of Python's datetime.fromisoformat as the code consumes it: the
calendar/clock fields plus the UTC offset in minutes (none = naive datetime). -/
structure PyDateTime where
  year : Nat
  month : Nat
  day : Nat
  hour : Nat := 0
  minute : Nat := 0
  second : Nat := 0
  microsecond : Nat := 0
  utcOffsetMinutes : Option Int := none
deriving DecidableEq, Repr

/-- Parses a trailing UTC offset: empty input means a naive datetime, else
exactly "+HH:MM" or "-HH:MM" with in-range fields ending the string. -/
def parseOffsetTail : List Char → Option (Option Int)
  | [] => some none
  | sign :: rest =>
    if sign = '+' || sign = '-' then
      match read2 rest with
      | some (h, ':' :: rest2) =>
        match read2 rest2 with
        | some (m, []) =>
          if h < 24 && m < 60 then
            some (some (if sign = '+' then (60 * h + m : Int) else -(60 * h + m : Int)))
          else none
        | _ => none
      | _ => none
    else none

/-- Parses the optional ":SS[.ffffff]" part followed by the offset tail,
returning seconds, microseconds and offset. -/
def parseSecFrac : List Char → Option (Nat × Nat × Option Int)
  | ':' :: rest =>
    match read2 rest with
    | some (s, rest2) =>
      if s ≥ 60 then none
      else
        match rest2 with
        | '.' :: rest3 =>
          let ds := rest3.takeWhile (·.isDigit)
          let rest4 := rest3.dropWhile (·.isDigit)
          if ds.isEmpty then none
          else (parseOffsetTail rest4).map (fun off => (s, fracVal ds, off))
        | _ => (parseOffsetTail rest2).map (fun off => (s, 0, off))
    | none => none
  | cs => (parseOffsetTail cs).map (fun off => (0, 0, off))

/-- Parser core for the ISO-8601 subset described above. -/
def parseIsoChars (cs : List Char) : Option PyDateTime :=
  match read4 cs with
  | some (y, '-' :: r2) =>
    match read2 r2 with
    | some (mo, '-' :: r4) =>
      match read2 r4 with
      | some (d, r5) =>
        if mo < 1 || 12 < mo || d < 1 || daysInMonth y mo < d then none
        else
          match r5 with
          | [] => some { year := y, month := mo, day := d }
          | 'T' :: r6 =>
            match read2 r6 with
            | some (h, ':' :: r8) =>
              match read2 r8 with
              | some (mi, r9) =>
                if 24 ≤ h || 60 ≤ mi then none
                else
                  match parseSecFrac r9 with
                  | some (s, us, off) =>
                    some { year := y, month := mo, day := d, hour := h, minute := mi,
                           second := s, microsecond := us, utcOffsetMinutes := off }
                  | none => none
              | _ => none
            | _ => none
          | _ => none
      | _ => none
    | _ => none
  | _ => none

/-- Embeds DraftKingsParser.convert_to_datetime (parser.py lines 44-57): the
input has every occurrence of "Z" replaced by "+00:00" (Python str.replace on
a single-character pattern is a per-character substitution) and is then handed
to datetime.fromisoformat; a parse failure raises inside Python and is caught,
yielding None, which the Option result represents - the function is total. -/
def convert_to_datetime (utc_str : String) : Option PyDateTime :=
  parseIsoChars (utc_str.data.flatMap (fun c => if c = 'Z' then "+00:00".data else [c]))

/-- One element of an event's participants array. -/
structure Participant where
  venueRole : Option String := none
  name : Option String := none
deriving DecidableEq, Repr

/-- One element of the payload's events array, with the fields parse_games
reads. -/
structure Event where
  id : Option String := none
  startEventDate : Option String := none
  participants : List Participant := []
  status : Option String := none
deriving DecidableEq, Repr

/-- One element of the payload's markets array, with the fields parse_games
reads. -/
structure Market where
  id : Option String := none
  eventId : Option String := none
  name : Option String := none
deriving DecidableEq, Repr

/-- The displayOdds object of a selection. -/
structure DisplayOdds where
  american : Option String := none
deriving DecidableEq, Repr

/-- One element of the payload's selections array, with the fields parse_games
reads.  points is the decimal rendering of the JSON number (none = key absent
or null, the two cases `sel.get('points')` conflates). -/
structure Selection where
  marketId : Option String := none
  label : Option String := none
  displayOdds : Option DisplayOdds := none
  points : Option String := none
deriving DecidableEq, Repr

/-- The raw JSON payload as parse_games reads it (events, markets and
selections arrays, each defaulting to empty when the key is absent). -/
structure RawData where
  events : List Event := []
  markets : List Market := []
  selections : List Selection := []
deriving DecidableEq, Repr

/-- The selection dictionaries parse_games emits: {'label': ..., 'odds': ...}. -/
structure ParsedSelection where
  label : String
  odds : String
deriving DecidableEq, Repr

/-- Embeds StandardizedGame (core/schemas.py lines 7-15); markets is a Python
dict from market name to the selections list, embedded as an association list
in insertion order. -/
structure StandardizedGame where
  sport : String
  game_id : String
  home_team : Option String := none
  away_team : Option String := none
  start_time : Option PyDateTime := none
  status : Option String := none
  markets : List (String × List ParsedSelection) := []
deriving DecidableEq, Repr

/-- Python dict assignment d[k] = v: an existing key keeps its position and
gets the new value, a new key is appended at the end. -/
def dictAssign {α β : Type} [DecidableEq α] (k : α) (v : β) :
    List (α × β) → List (α × β)
  | [] => [(k, v)]
  | (k0, v0) :: rest =>
    if k0 = k then (k0, v) :: rest else (k0, v0) :: dictAssign k v rest

/-- Python dict lookup d.get(k): value of the (unique) binding of k, if any. -/
def dictGet {α β : Type} [DecidableEq α] (m : List (α × β)) (k : α) : Option β :=
  (m.find? (fun kv => kv.1 == k)).map (·.2)

/-- Embeds StandardizedGame.add_market (core/schemas.py lines 17-24):
self.markets[market_name] = selections. -/
def StandardizedGame.add_market (g : StandardizedGame) (market_name : String)
    (selections : List ParsedSelection) : StandardizedGame :=
  { g with markets := dictAssign market_name selections g.markets }

/-- Embeds the participants loop of parse_games (parser.py lines 116-123):
folds over the participants, recording the name of the last participant whose
lower-cased venueRole is "away" (first component) resp. "home" (second);
missing venueRole/name keys default to "". -/
def findTeams (participants : List Participant) : Option String × Option String :=
  participants.foldl
    (fun acc participant =>
      let venue_role := pyLower (participant.venueRole.getD "")
      let team_name := participant.name.getD ""
      if venue_role = "away" then (some team_name, acc.2)
      else if venue_role = "home" then (acc.1, some team_name)
      else acc)
    (none, none)

/-- Replacement of every Unicode minus sign U+2212 by an ASCII hyphen
(parser.py line 161, odds.replace of a single-character pattern by a
single-character replacement, i.e. a per-character substitution). -/
def replaceMinus (s : String) : String :=
  String.mk (s.data.map (fun c => if c = '\u2212' then '-' else c))

/-- Embeds the per-selection body of parse_games (parser.py lines 157-171):
label defaults to 'Unknown', odds to the american display odds or 'N/A',
the Unicode minus is normalised, and a present points value is appended to
the label as " (points)". -/
def parseSelection (sel : Selection) : ParsedSelection :=
  let label := sel.label.getD "Unknown"
  let odds := replaceMinus ((sel.displayOdds.getD {}).american.getD "N/A")
  match sel.points with
  | some p => { label := label ++ " (" ++ p ++ ")", odds := odds }
  | none => { label := label, odds := odds }

/-- The selections of one market (parser.py lines 83-89 and 154): the source
groups the selections array into a dict keyed by marketId and looks the key
up with default []; for a fixed key that equals filtering the array by that
key in payload order.  A market without an id key (id = none) collects the
selections without a marketId key, as in Python where both are the key None. -/
def selectionsFor (selections : List Selection) (market_id : Option String) :
    List Selection :=
  selections.filter (fun sel => sel.marketId == market_id)

/-- Parsed selections of one market (parser.py lines 153-171). -/
def parseSelections (selections : List Selection) (market_id : Option String) :
    List ParsedSelection :=
  (selectionsFor selections market_id).map parseSelection

/-- Embeds the markets loop of parse_games (parser.py lines 142-174): for each
market of the event, in payload order, add_market its parsed selections under
its name (default 'Unknown'). -/
def processMarkets (selections : List Selection) (game : StandardizedGame)
    (event_markets : List Market) : StandardizedGame :=
  event_markets.foldl
    (fun g mkt => g.add_market (mkt.name.getD "Unknown") (parseSelections selections mkt.id))
    game

/-- The start_time expression of parse_games (parser.py lines 108-109):
convert_to_datetime(s) if the startEventDate string is present and truthy,
else None. -/
def startTimeOf (startEventDate : Option String) : Option PyDateTime :=
  match startEventDate with
  | some s => if s = "" then none else convert_to_datetime s
  | none => none

/-- Embeds the per-event body of parse_games (parser.py lines 101-176):
none is an event skipped by a `continue` (empty/missing id, or a missing or
empty-named home or away participant - Python's `not team` is true for both
None and "").  The event's markets are those whose eventId equals the event
id (the source's dict index markets_by_event, looked up at one key).  The
try/except around the body only catches exceptions none of the modelled field
accesses can raise. -/
def parseEvent (markets : List Market) (selections : List Selection)
    (sport_name : String) (event : Event) : Option StandardizedGame :=
  let event_id := event.id.getD ""
  if event_id = "" then none
  else
    let start_time := startTimeOf event.startEventDate
    let teams := findTeams event.participants
    if opt_falsy teams.1 || opt_falsy teams.2 then none
    else
      let status := event.status.getD "UNKNOWN"
      let game : StandardizedGame :=
        { sport := sport_name
          game_id := "dk_" ++ event_id
          home_team := teams.2
          away_team := teams.1
          start_time := start_time
          status := some status
          markets := [] }
      some (processMarkets selections game
        (markets.filter (fun mkt => mkt.eventId == some event_id)))

/-- Embeds DraftKingsParser.parse_games (parser.py lines 59-183): an empty (or
absent) events array yields []; otherwise each event is processed in order and
the skipped ones contribute nothing.  The initial `not raw_data` guard of the
source coincides with this on the embedding (a falsy raw dict has no events). -/
def parse_games (raw_data : RawData) (sport_name : String) : List StandardizedGame :=
  if raw_data.events = [] then []
  else raw_data.events.filterMap (parseEvent raw_data.markets raw_data.selections sport_name)

/-- The concrete payload of claim C1: one event, one market, two selections. -/
def c1Payload : RawData :=
  { events := [{ id := some "12345"
                 participants := [{ venueRole := some "away", name := some "Team A" },
                                  { venueRole := some "home", name := some "Team B" }]
                 status := some "UPCOMING" }]
    markets := [{ id := some "mkt1", eventId := some "12345", name := some "Moneyline" }]
    selections := [{ marketId := some "mkt1", label := some "Team A",
                     displayOdds := some { american := some "+150" } },
                   { marketId := some "mkt1", label := some "Team B",
                     displayOdds := some { american := some "-170" } }] }

/-- The game claim C1 expects the extractor to produce. -/
def c1Game : StandardizedGame :=
  { sport := "NBA"
    game_id := "dk_12345"
    home_team := some "Team B"
    away_team := some "Team A"
    start_time := none
    status := some "UPCOMING"
    markets := [("Moneyline", [{ label := "Team A", odds := "+150" },
                               { label := "Team B", odds := "-170" }])] }

/-- A concrete event with one away and one home participant. -/
def c3Event : Event :=
  { id := some "1"
    participants := [{ venueRole := some "away", name := some "A" },
                     { venueRole := some "home", name := some "B" }] }

/-- The game parseEvent emits for c3Event with no markets. -/
def c3Game : StandardizedGame :=
  { sport := "NBA", game_id := "dk_1", home_team := some "B", away_team := some "A",
    status := some "UNKNOWN" }

/-- A concrete event whose participants lack a home role. -/
def c3EventNoHome : Event :=
  { id := some "2", participants := [{ venueRole := some "away", name := some "A" }] }

/-- A concrete event carrying an unparseable start timestamp. -/
def c6Event : Event :=
  { id := some "1"
    startEventDate := some "not a date"
    participants := [{ venueRole := some "away", name := some "A" },
                     { venueRole := some "home", name := some "B" }] }

/-- The game parseEvent emits for c6Event. -/
def c6Game : StandardizedGame :=
  { sport := "NBA", game_id := "dk_1", home_team := some "B", away_team := some "A",
    start_time := none, status := some "UNKNOWN" }

/-- A concrete spread selection with a Unicode-minus odds string. -/
def c7Sel : Selection :=
  { label := some "Team A"
    displayOdds := some { american := some "−110" }
    points := some "-3.5" }

/-- Two same-named markets on one event. -/
def c9Markets : List Market :=
  [{ id := some "m1", eventId := some "1", name := some "Moneyline" },
   { id := some "m2", eventId := some "1", name := some "Moneyline" }]

/-- Selections of the two same-named markets. -/
def c9Sels : List Selection :=
  [{ marketId := some "m1", label := some "X",
     displayOdds := some { american := some "+100" } },
   { marketId := some "m2", label := some "Y",
     displayOdds := some { american := some "+200" } }]

/-- The game parseEvent emits for c3Event under the duplicate markets: the
"Moneyline" key holds only the second market's selections. -/
def c9Game : StandardizedGame :=
  { sport := "NBA", game_id := "dk_1", home_team := some "B", away_team := some "A",
    status := some "UNKNOWN"
    markets := [("Moneyline", [{ label := "Y", odds := "+200" }])] }

/-- A minimal game used by the C10 witness. -/
def c10Game : StandardizedGame := { sport := "X", game_id := "g" }

/-- Base URL of the DraftKings sportsbook API (mappings.py). -/
def BASE_URL : String := "https://sportsbook-nash.draftkings.com"

/-- Manifest endpoint (mappings.py). -/
def MANIFEST_URL : String :=
  BASE_URL ++ "/sites/US-OH-SB/api/sportslayout/v1/manifest?format=json"

/-- Template endpoint prefix (mappings.py). -/
def TEMPLATE_URL_BASE : String :=
  BASE_URL ++ "/sites/US-OH-SB/api/sportsstructure/v1/templates/"

/-- Market-data endpoint (mappings.py). -/
def MARKET_URL_BASE : String :=
  BASE_URL ++ "/sites/US-OH-SB/api/sportscontent/controldata/league/leagueSubcategory/v1/markets"

/-- LEAGUE_ROUTES table (mappings.py lines 54-57) as dict.get. -/
def LEAGUE_ROUTES (sport : String) : Option String :=
  if sport = "NFL" then some "/leagues/football/nfl"
  else if sport = "NBA" then some "/leagues/basketball/nba"
  else none

/-- SUBCATEGORY_IDS table (mappings.py lines 48-51) as dict.get. -/
def SUBCATEGORY_IDS (sport : String) : Option String :=
  if sport = "NFL" then some "4518"
  else if sport = "NBA" then some "4511"
  else none

/-- One override of a route group of the manifest. -/
structure Override where
  seoRoute : Option String := none
  templateId : Option String := none
  route : Option String := none
deriving DecidableEq, Repr

/-- One route group of the manifest. -/
structure RouteGroup where
  key : Option String := none
  overrides : List Override := []
deriving DecidableEq, Repr

/-- The manifest JSON as find_league_info reads it. -/
structure Manifest where
  routes : List RouteGroup := []
deriving DecidableEq, Repr

/-- League-id extraction from an override's route (client.py lines 109-114).
The source guards with `'/league/' in route` and indexes split[1] under a
try/except IndexError; when the marker occurs the split has at least two
pieces and [1] succeeds, and when it does not occur the guard leaves None -
both branches collapse to the optional second piece of the split. -/
def extractLeagueId (route : String) : Option String :=
  (pySplit "/league/" route)[1]?

/-- Inner loop of find_league_info (client.py lines 103-117): first override
whose seoRoute equals the target route wins and returns immediately. -/
def findInOverrides (target_route : String) :
    List Override → Option (Option String × Option String)
  | [] => none
  | ov :: rest =>
    if ov.seoRoute == some target_route then
      some (ov.templateId, extractLeagueId (ov.route.getD ""))
    else findInOverrides target_route rest

/-- Outer loop of find_league_info (client.py lines 101-120): scans the route
groups, and inside every group keyed "league" scans the overrides. -/
def findInRouteGroups (target_route : String) :
    List RouteGroup → Option String × Option String
  | [] => (none, none)
  | rg :: rest =>
    if rg.key == some "league" then
      match findInOverrides target_route rg.overrides with
      | some res => res
      | none => findInRouteGroups target_route rest
    else findInRouteGroups target_route rest

/-- Embeds DraftKingsDynamicClient.find_league_info (client.py lines 82-120).
The source's initial `if not manifest_data` guard returns (None, None) for a
falsy manifest; in the embedding a falsy (empty) manifest has no route groups
and the loop returns (None, None) the same way. -/
def find_league_info (manifest_data : Manifest) (sport_name : String) :
    Option String × Option String :=
  match LEAGUE_ROUTES sport_name with
  | none => (none, none)
  | some target_route => findInRouteGroups target_route manifest_data.routes

/-- The parameters object of a data set. -/
structure QueryParams where
  marketsQuery : Option String := none
  eventsQuery : Option String := none
deriving DecidableEq, Repr

/-- One data set of the template. -/
structure DataSet where
  name : Option String := none
  parameters : Option QueryParams := none
  provider : Option String := none
deriving DecidableEq, Repr

/-- The data object of the template. -/
structure TemplateData where
  sets : List DataSet := []
deriving DecidableEq, Repr

/-- The template JSON as extract_all_market_queries reads it. -/
structure Template where
  data : Option TemplateData := none
deriving DecidableEq, Repr

/-- One extracted market query (the dict with name/eventsQuery/marketsQuery
the source appends, client.py lines 148-152). -/
structure MarketQuery where
  name : String
  eventsQuery : String
  marketsQuery : String
deriving DecidableEq, Repr

/-- Loop body of extract_all_market_queries (client.py lines 138-153): a data
set whose provider is "Markets" and whose two query strings are non-empty
(Python truthiness) appends its candidate. -/
def extractStep (queries : List MarketQuery) (data_set : DataSet) : List MarketQuery :=
  if data_set.provider == some "Markets" then
    let markets_query := (data_set.parameters.getD {}).marketsQuery.getD ""
    let events_query := (data_set.parameters.getD {}).eventsQuery.getD ""
    if markets_query ≠ "" ∧ events_query ≠ "" then
      queries ++ [{ name := data_set.name.getD ""
                    eventsQuery := events_query
                    marketsQuery := markets_query }]
    else queries
  else queries

/-- Embeds DraftKingsDynamicClient.extract_all_market_queries (client.py
lines 122-156): folds the loop body over the template's data sets in order. -/
def extract_all_market_queries (template_data : Template) : List MarketQuery :=
  ((template_data.data.map TemplateData.sets).getD []).foldl extractStep []

/-- UTF-8 encoding of one character as byte values (what CPython's str.encode
produces per character). -/
def utf8Bytes (c : Char) : List Nat :=
  if c.toNat < 0x80 then [c.toNat]
  else if c.toNat < 0x800 then [0xC0 + c.toNat / 64, 0x80 + c.toNat % 64]
  else if c.toNat < 0x10000 then
    [0xE0 + c.toNat / 4096, 0x80 + c.toNat / 64 % 64, 0x80 + c.toNat % 64]
  else
    [0xF0 + c.toNat / 0x40000, 0x80 + c.toNat / 4096 % 64,
     0x80 + c.toNat / 64 % 64, 0x80 + c.toNat % 64]

/-- Bytes urllib.parse.quote never encodes: ASCII digits, letters, and the
four marks _.-~ . -/
def safeByte (b : Nat) : Bool :=
  (48 ≤ b && b ≤ 57) || (65 ≤ b && b ≤ 90) || (97 ≤ b && b ≤ 122) ||
  b = 45 || b = 46 || b = 95 || b = 126

/-- Upper-case hexadecimal digit character of n < 16. -/
def hexDig (n : Nat) : Char :=
  if n < 10 then Char.ofNat (48 + n) else Char.ofNat (65 + (n - 10))

/-- Characters quote_plus emits for one byte. -/
def encByte (b : Nat) : List Char :=
  if safeByte b then [Char.ofNat b]
  else if b = 32 then ['+']
  else ['%', hexDig (b / 16), hexDig (b % 16)]

/-- urllib.parse.quote_plus on a string. -/
def quote_plus (s : String) : String :=
  String.mk ((s.data.flatMap utf8Bytes).flatMap encByte)

/-- One key=value piece of urlencode, both sides quoted with quote_plus. -/
def pieceOf (kv : String × String) : String :=
  quote_plus kv.1 ++ "=" ++ quote_plus kv.2

/-- urllib.parse.urlencode with its default quote_via=quote_plus on an
association list (the insertion order of the Python dict literal): the
key=value pieces joined with '&'. -/
def urlencode : List (String × String) → String
  | [] => ""
  | [kv] => pieceOf kv
  | kv :: rest => pieceOf kv ++ "&" ++ urlencode rest

/-- Embeds DraftKingsDynamicClient.construct_market_url (client.py lines
158-195): substitutes the league id for both placeholder spellings in both
query strings, then urlencodes the six control parameters onto the market
base URL.  The source's `if not queries` None branch fires only for a falsy
(empty) queries dict, which the MarketQuery structure cannot denote, so the
embedding is total. -/
def construct_market_url (queries : MarketQuery) (league_id : String) : String :=
  let events_query := pyReplace "@leagueId" league_id queries.eventsQuery
  let markets_query := pyReplace "@leagueId" league_id queries.marketsQuery
  let events_query := pyReplace "@page.leagueId" league_id events_query
  let markets_query := pyReplace "@page.leagueId" league_id markets_query
  MARKET_URL_BASE ++ "?" ++ urlencode
    [("isBatchable", "false"), ("templateVars", league_id),
     ("eventsQuery", events_query), ("marketsQuery", markets_query),
     ("include", "Events"), ("entity", "events")]

/-- The two dynamic eligibility checks of the candidate loop (client.py lines
242-251): the events query must not mention 'eventId' and must mention the
'@subcategoryId' placeholder. -/
def isEligible (query : MarketQuery) : Bool :=
  !(pyContains "eventId" query.eventsQuery) && pyContains "@subcategoryId" query.eventsQuery

/-- Substitution of the target subcategory id into both queries (client.py
lines 253-258). -/
def injectSubcategory (sub : String) (query : MarketQuery) : MarketQuery :=
  { name := query.name
    eventsQuery := pyReplace "@subcategoryId" sub query.eventsQuery
    marketsQuery := pyReplace "@subcategoryId" sub query.marketsQuery }

/-- The market-data URL the loop fetches for one candidate. -/
def marketUrlOf (league_id sub : String) (query : MarketQuery) : String :=
  construct_market_url (injectSubcategory sub query) league_id

/-- Embeds the candidate loop of get_games_for_sport (client.py lines
242-273) over an abstract fetch function standing for fetch_json on market
URLs (none = request failure).  The first component is the loop's return
value; the second records the URLs actually fetched, in order, so that
statements about which candidates were attempted can be made. -/
def try_market_queries (fetchMarket : String → Option RawData) (league_id sub : String) :
    List MarketQuery → Option RawData × List String
  | [] => (none, [])
  | query :: rest =>
    if isEligible query then
      let url := marketUrlOf league_id sub query
      match fetchMarket url with
      | some market_data =>
        if market_data.events ≠ [] then (some market_data, [url])
        else
          let r := try_market_queries fetchMarket league_id sub rest
          (r.1, url :: r.2)
      | none =>
        let r := try_market_queries fetchMarket league_id sub rest
        (r.1, url :: r.2)
    else try_market_queries fetchMarket league_id sub rest

/-- The network, as fetch_json sees it: the manifest, the template per
template URL, and the market payload per market URL (none = request
failure; the payloads are typed by the structure the code reads out of the
JSON).  A fetched market payload is returned when it is truthy with a
non-empty events array, which the events ≠ [] test expresses (a falsy {}
payload has no events). -/
structure NetEnv where
  fetchManifest : Option Manifest
  fetchTemplate : String → Option Template
  fetchMarket : String → Option RawData

/-- Embeds DraftKingsDynamicClient.get_games_for_sport (client.py lines
197-273) with its fetch trace: manifest fetch, league resolution (failing on
falsy template or league ids), template fetch, query extraction, subcategory
lookup, then the candidate loop. -/
def get_games_trace (env : NetEnv) (sport_name : String) : Option RawData × List String :=
  match env.fetchManifest with
  | none => (none, [])
  | some manifest_data =>
    let tl := find_league_info manifest_data sport_name
    if opt_falsy tl.1 || opt_falsy tl.2 then (none, [])
    else
      match env.fetchTemplate (TEMPLATE_URL_BASE ++ tl.1.getD "" ++ "?format=json") with
      | none => (none, [])
      | some template_data =>
        let queries := extract_all_market_queries template_data
        match SUBCATEGORY_IDS sport_name with
        | none => (none, [])
        | some target_subcategory_id =>
          try_market_queries env.fetchMarket (tl.2.getD "") target_subcategory_id queries

/-- The return value of get_games_for_sport is the first component of the
traced run. -/
def get_games_for_sport (env : NetEnv) (sport_name : String) : Option RawData :=
  (get_games_trace env sport_name).1

/-- A concrete manifest with a non-league group and a matching NFL override. -/
def c4Manifest : Manifest :=
  { routes := [{ key := some "other", overrides := [] },
               { key := some "league"
                 overrides := [{ seoRoute := some "/leagues/football/nfl"
                                 templateId := some "tmpl88"
                                 route := some "/sport/2/league/88808" }] }] }

/-- A candidate whose fetch fails the loop's acceptance test: the request
errors, or the payload's events array is empty (which also covers a falsy
payload). -/
def fetchFails (fm : String → Option RawData) (league sub : String)
    (q : MarketQuery) : Prop :=
  fm (marketUrlOf league sub q) = none ∨
  ∃ md, fm (marketUrlOf league sub q) = some md ∧ md.events = []

/-- The URLs of the eligible candidates of a list, in order. -/
def eligibleUrls (league sub : String) (qs : List MarketQuery) : List String :=
  (qs.filter isEligible).map (marketUrlOf league sub)

/-- An ineligible candidate (its events query mentions eventId). -/
def c2BadQuery : MarketQuery :=
  { name := "bad", eventsQuery := "q?eventId=7", marketsQuery := "m" }

/-- An eligible candidate. -/
def c2GoodQuery : MarketQuery :=
  { name := "good", eventsQuery := "e(@subcategoryId)", marketsQuery := "m(@subcategoryId)" }

/-- A market payload with a non-empty events array. -/
def c2Payload : RawData := { events := [{ id := some "9" }] }

/-- A market fetch that answers only the good candidate's URL. -/
def c2Fm : String → Option RawData :=
  fun u => if u = marketUrlOf "42" "4511" c2GoodQuery then some c2Payload else none

/-- A manifest resolving the NBA league page. -/
def c2Manifest : Manifest :=
  { routes := [{ key := some "league"
                 overrides := [{ seoRoute := some "/leagues/basketball/nba"
                                 templateId := some "t1"
                                 route := some "/sport/1/league/42" }] }] }

/-- A template whose single data set yields the good candidate. -/
def c2Template : Template :=
  { data := some { sets := [{ name := some "good"
                              provider := some "Markets"
                              parameters := some { marketsQuery := some "m(@subcategoryId)"
                                                   eventsQuery := some "e(@subcategoryId)" } }] } }

/-- An environment that resolves NBA but whose market fetches all fail. -/
def c2Env : NetEnv :=
  { fetchManifest := some c2Manifest
    fetchTemplate := fun u =>
      if u = TEMPLATE_URL_BASE ++ "t1" ++ "?format=json" then some c2Template else none
    fetchMarket := fun _ => none }

/-- First data set of the C5 environment (eligible). -/
def c5ds1 : DataSet :=
  { name := some "one"
    provider := some "Markets"
    parameters := some { marketsQuery := some "m1(@subcategoryId)"
                         eventsQuery := some "a(@subcategoryId)" } }

/-- Second data set of the C5 environment (also satisfying every condition
of the claim). -/
def c5ds2 : DataSet :=
  { name := some "two"
    provider := some "Markets"
    parameters := some { marketsQuery := some "m2(@subcategoryId)"
                         eventsQuery := some "b(@subcategoryId)" } }

/-- A template with both data sets. -/
def c5Template : Template := { data := some { sets := [c5ds1, c5ds2] } }

/-- The candidates the two data sets contribute. -/
def c5q1 : MarketQuery :=
  { name := "one", eventsQuery := "a(@subcategoryId)", marketsQuery := "m1(@subcategoryId)" }

/-- Candidate of the second data set. -/
def c5q2 : MarketQuery :=
  { name := "two", eventsQuery := "b(@subcategoryId)", marketsQuery := "m2(@subcategoryId)" }

/-- A manifest resolving the NBA league page (league id 42). -/
def c5Manifest : Manifest :=
  { routes := [{ key := some "league"
                 overrides := [{ seoRoute := some "/leagues/basketball/nba"
                                 templateId := some "t1"
                                 route := some "/sport/1/league/42" }] }] }

/-- A market payload with a non-empty events array. -/
def c5Payload : RawData := { events := [{ id := some "7" }] }

/-- An environment whose first candidate's fetch succeeds at once. -/
def c5Env : NetEnv :=
  { fetchManifest := some c5Manifest
    fetchTemplate := fun u =>
      if u = TEMPLATE_URL_BASE ++ "t1" ++ "?format=json" then some c5Template else none
    fetchMarket := fun u =>
      if u = marketUrlOf "42" "4511" c5q1 then some c5Payload else none }

/-- The static conditions of extract_all_market_queries on one data set:
provider "Markets" and both query strings non-empty. -/
def eligibleSet (ds : DataSet) : Bool :=
  ds.provider == some "Markets" &&
  ((ds.parameters.getD {}).marketsQuery.getD "" != "") &&
  ((ds.parameters.getD {}).eventsQuery.getD "" != "")

/-- The candidate a kept data set contributes. -/
def toMarketQuery (ds : DataSet) : MarketQuery :=
  { name := ds.name.getD ""
    eventsQuery := (ds.parameters.getD {}).eventsQuery.getD ""
    marketsQuery := (ds.parameters.getD {}).marketsQuery.getD "" }

/-- The eligible candidates the loop runs through, up to and including the
first whose fetch yields a payload with non-empty events. -/
def takeUntilSuccess (fm : String → Option RawData) (league sub : String) :
    List MarketQuery → List MarketQuery
  | [] => []
  | q :: rest =>
    match fm (marketUrlOf league sub q) with
    | some md =>
      if md.events ≠ [] then [q] else q :: takeUntilSuccess fm league sub rest
    | none => q :: takeUntilSuccess fm league sub rest

/-- Value of an upper-case hexadecimal digit character. -/
def hexVal (c : Char) : Option Nat :=
  if '0' ≤ c ∧ c ≤ '9' then some (c.toNat - 48)
  else if 'A' ≤ c ∧ c ≤ 'F' then some (c.toNat - 55)
  else none

/-- Decoder of the percent-encoding byte stream. -/
def decBytes : List Char → Option (List Nat)
  | [] => some []
  | c :: rest =>
    if c = '%' then
      match rest with
      | h :: l :: rest2 =>
        match hexVal h, hexVal l with
        | some hv, some lv => (decBytes rest2).map (fun bs => (16 * hv + lv) :: bs)
        | _, _ => none
      | _ => none
    else if c = '+' then (decBytes rest).map (fun bs => 32 :: bs)
    else if safeByte c.toNat then (decBytes rest).map (fun bs => c.toNat :: bs)
    else none

/-- Decoder of UTF-8 byte lists (validity of continuation bytes is not
checked; on encoder output it recovers the characters). -/
def decUtf8 : List Nat → Option (List Char)
  | [] => some []
  | b :: rest =>
    if b < 0x80 then (decUtf8 rest).map (fun cs => Char.ofNat b :: cs)
    else
      match rest with
      | [] => none
      | b2 :: rest2 =>
        if b < 0xE0 then
          (decUtf8 rest2).map (fun cs => Char.ofNat ((b - 0xC0) * 64 + (b2 - 0x80)) :: cs)
        else
          match rest2 with
          | [] => none
          | b3 :: rest3 =>
            if b < 0xF0 then
              (decUtf8 rest3).map
                (fun cs => Char.ofNat ((b - 0xE0) * 4096 + (b2 - 0x80) * 64 + (b3 - 0x80)) :: cs)
            else
              match rest3 with
              | [] => none
              | b4 :: rest4 =>
                (decUtf8 rest4).map
                  (fun cs => Char.ofNat ((b - 0xF0) * 0x40000 + (b2 - 0x80) * 4096 +
                    (b3 - 0x80) * 64 + (b4 - 0x80)) :: cs)

/-- The parameter pieces of a URL: the part after the '?' split on '&'. -/
def urlParams (url : String) : List String :=
  pySplit "&" (((pySplit "?" url)[1]?).getD "")

/-- A concrete candidate with both placeholder spellings. -/
def c8Query : MarketQuery :=
  { name := "n"
    eventsQuery := "e @leagueId x"
    marketsQuery := "m @page.leagueId y" }

/-! ## Theorems -/

/-- Unfolding of the splitter on empty input. -/
theorem pySplitAux_nil (s0 : Char) (ss : List Char) (fuel : Nat) (acc : List Char) :
    pySplitAux s0 ss fuel acc [] = [acc.reverse] := by
  cases fuel <;> rfl

/-- Unfolding of the splitter on non-empty input with positive fuel. -/
theorem pySplitAux_cons (s0 : Char) (ss : List Char) (g : Nat) (acc : List Char)
    (c : Char) (rest : List Char) :
    pySplitAux s0 ss (g + 1) acc (c :: rest) =
      if (s0 :: ss).isPrefixOf (c :: rest) then
        acc.reverse :: pySplitAux s0 ss g [] (rest.drop ss.length)
      else pySplitAux s0 ss g (c :: acc) rest := rfl

/-- The splitter ignores the exact fuel as long as it covers the input. -/
theorem pySplitAux_fuel (s0 : Char) (ss : List Char) :
    ∀ (f1 : Nat) (l : List Char) (f2 : Nat) (acc : List Char),
      l.length ≤ f1 → l.length ≤ f2 →
      pySplitAux s0 ss f1 acc l = pySplitAux s0 ss f2 acc l := by
  intro f1
  induction f1 with
  | zero =>
    intro l f2 acc h1 h2
    cases l with
    | nil => rw [pySplitAux_nil, pySplitAux_nil]
    | cons c r => simp at h1
  | succ g1 ih =>
    intro l f2 acc h1 h2
    cases l with
    | nil => rw [pySplitAux_nil, pySplitAux_nil]
    | cons c rest =>
      cases f2 with
      | zero => simp at h2
      | succ g2 =>
        rw [pySplitAux_cons, pySplitAux_cons]
        simp only [List.length_cons] at h1 h2
        by_cases ht : (s0 :: ss).isPrefixOf (c :: rest) = true
        · rw [ht]
          simp only [if_true]
          rw [ih (rest.drop ss.length) g2 []
            (by simp only [List.length_drop]; omega)
            (by simp only [List.length_drop]; omega)]
        · rw [Bool.eq_false_iff.mpr ht]
          simp only [Bool.false_eq_true, if_false]
          rw [ih rest g2 (c :: acc) (by omega) (by omega)]

/-- dict lookup after dict assignment: the assigned key now maps to the new
value, every other key is untouched. -/
theorem dictGet_dictAssign {α β : Type} [DecidableEq α] (k0 k : α) (v : β)
    (m : List (α × β)) :
    dictGet (dictAssign k0 v m) k = if k0 = k then some v else dictGet m k := by
  induction m with
  | nil =>
    rcases eq_or_ne k0 k with h | h
    · subst h; simp [dictGet, dictAssign, List.find?]
    · simp [dictGet, dictAssign, List.find?, h, beq_false_of_ne h]
  | cons hd tl ih =>
    obtain ⟨k1, v1⟩ := hd
    rcases eq_or_ne k1 k0 with h1 | h1
    · subst h1
      rcases eq_or_ne k1 k with h | h
      · subst h; simp [dictGet, dictAssign, List.find?]
      · simp [dictGet, dictAssign, List.find?, h, beq_false_of_ne h]
    · rcases eq_or_ne k1 k with h | h
      · subst h
        simp [dictGet, dictAssign, List.find?, h1, (Ne.symm h1 : k0 ≠ k1)]
      · simp only [dictGet, dictAssign, List.find?, if_neg h1] at ih ⊢
        simp [beq_false_of_ne h, ih]

/-- processMarkets only rewrites the markets dictionary; every other field of
the game survives the markets loop unchanged. -/
theorem processMarkets_preserves (selections : List Selection)
    (game : StandardizedGame) (ms : List Market) :
    (processMarkets selections game ms).sport = game.sport ∧
    (processMarkets selections game ms).game_id = game.game_id ∧
    (processMarkets selections game ms).home_team = game.home_team ∧
    (processMarkets selections game ms).away_team = game.away_team ∧
    (processMarkets selections game ms).start_time = game.start_time ∧
    (processMarkets selections game ms).status = game.status := by
  induction ms generalizing game with
  | nil => simp [processMarkets]
  | cons m ms ih =>
    have step : processMarkets selections game (m :: ms) =
        processMarkets selections
          (game.add_market (m.name.getD "Unknown") (parseSelections selections m.id)) ms := by
      simp [processMarkets]
    rw [step]
    simpa [StandardizedGame.add_market] using
      ih (game.add_market (m.name.getD "Unknown") (parseSelections selections m.id))

/-- markets lookup after the markets loop: a key bound by some market of the
list holds the parsed selections of the last such market; otherwise the
original binding persists. -/
theorem dictGet_processMarkets (selections : List Selection)
    (game : StandardizedGame) (ms : List Market) (k : String) :
    dictGet (processMarkets selections game ms).markets k =
      match (ms.filter (fun mkt => mkt.name.getD "Unknown" == k)).getLast? with
      | some m => some (parseSelections selections m.id)
      | none => dictGet game.markets k := by
  induction ms using List.reverseRecOn with
  | nil => simp [processMarkets]
  | append_singleton ms m ih =>
    have step : processMarkets selections game (ms ++ [m]) =
        (processMarkets selections game ms).add_market (m.name.getD "Unknown")
          (parseSelections selections m.id) := by
      simp [processMarkets, List.foldl_append]
    rw [step]
    simp only [StandardizedGame.add_market]
    rw [dictGet_dictAssign]
    by_cases hname : (m.name.getD "Unknown") = k
    · simp [List.filter_append, hname]
    · have hb : (m.name.getD "Unknown" == k) = false := beq_false_of_ne hname
      simp [List.filter_append, hb, hname, ih]

/-- results of the team-extraction fold: the away (resp. home) component is
the name of the last participant whose lower-cased venueRole is "away"
(resp. "home"). -/
theorem findTeams_eq (ps : List Participant) :
    (findTeams ps).1 =
      ((ps.filter (fun p => pyLower (p.venueRole.getD "") == "away")).getLast?).map
        (fun p => p.name.getD "") ∧
    (findTeams ps).2 =
      ((ps.filter (fun p => pyLower (p.venueRole.getD "") == "home")).getLast?).map
        (fun p => p.name.getD "") := by
  induction ps using List.reverseRecOn with
  | nil => simp [findTeams]
  | append_singleton ps p ih =>
    have step : findTeams (ps ++ [p]) =
        (fun acc (participant : Participant) =>
          let venue_role := pyLower (participant.venueRole.getD "")
          let team_name := participant.name.getD ""
          if venue_role = "away" then (some team_name, acc.2)
          else if venue_role = "home" then (acc.1, some team_name)
          else acc) (findTeams ps) p := by
      simp [findTeams, List.foldl_append]
    rw [step]
    by_cases ha : pyLower (p.venueRole.getD "") = "away"
    · simp [List.filter_append, ha, ih.2]
    · by_cases hh : pyLower (p.venueRole.getD "") = "home"
      · simp [List.filter_append, ha, hh, beq_false_of_ne ha, ih.1]
      · simp [List.filter_append, beq_false_of_ne ha, beq_false_of_ne hh, ha, hh, ih.1, ih.2]

/-- anatomy of a successfully parsed event: the game parseEvent emits is the
markets loop applied to the skeleton game, and the falsiness checks passed. -/
theorem parseEvent_some (markets : List Market) (selections : List Selection)
    (sport_name : String) (event : Event) (g : StandardizedGame)
    (h : parseEvent markets selections sport_name event = some g) :
    event.id.getD "" ≠ "" ∧
    opt_falsy (findTeams event.participants).1 = false ∧
    opt_falsy (findTeams event.participants).2 = false ∧
    g = processMarkets selections
        { sport := sport_name
          game_id := "dk_" ++ event.id.getD ""
          home_team := (findTeams event.participants).2
          away_team := (findTeams event.participants).1
          start_time := startTimeOf event.startEventDate
          status := some (event.status.getD "UNKNOWN")
          markets := [] }
        (markets.filter (fun mkt => mkt.eventId == some (event.id.getD ""))) := by
  unfold parseEvent at h
  by_cases hid : event.id.getD "" = ""
  · simp [hid] at h
  · simp only [hid, if_false] at h
    by_cases hf : (opt_falsy (findTeams event.participants).1 ||
        opt_falsy (findTeams event.participants).2) = true
    · simp [hf] at h
    · simp only [Bool.or_eq_true, not_or, Bool.not_eq_true] at hf
      rw [hf.1, hf.2] at h
      rw [if_neg (by decide : ¬((false || false) = true))] at h
      injection h with h
      exact ⟨hid, hf.1, hf.2, h.symm⟩

/-- C1: for the concrete one-event payload (id "12345", away "Team A", home
"Team B", status "UPCOMING"; market "mkt1"/"Moneyline"; two selections with
american odds "+150" and "-170"), parse_games returns exactly one game with
game_id "dk_12345", home_team "Team B", away_team "Team A", and the key
"Moneyline" bound to both selections in payload order with labels and odds
unchanged. -/
theorem claim_C1_extractor_scenario :
    parse_games c1Payload "NBA" = [c1Game] ∧
    c1Game.game_id = "dk_12345" ∧
    c1Game.home_team = some "Team B" ∧
    c1Game.away_team = some "Team A" ∧
    dictGet c1Game.markets "Moneyline" =
      some [{ label := "Team A", odds := "+150" }, { label := "Team B", odds := "-170" }] := by
  decide

/-- replacing characters through the Z-expansion: characters other than Z are
kept verbatim. -/
theorem flatMap_noZ (cs : List Char) (h : 'Z' ∉ cs) :
    cs.flatMap (fun c => if c = 'Z' then "+00:00".data else [c]) = cs := by
  induction cs with
  | nil => rfl
  | cons c cs ih =>
    simp only [List.mem_cons, not_or] at h
    simp only [List.flatMap_cons]
    rw [if_neg (fun hc => h.1 hc.symm), ih h.2]
    rfl

/-- C3: an event with a unique away-role and a unique home-role participant
(venueRole compared lower-cased) yields a game carrying those participants'
names as away_team/home_team; an event missing either role yields no game;
and a skipped event leaves the processing of the later events unchanged. -/
theorem claim_C3_participant_roles :
    (∀ (markets : List Market) (selections : List Selection) (sport_name : String)
        (event : Event) (g : StandardizedGame) (pa ph : Participant),
        parseEvent markets selections sport_name event = some g →
        event.participants.filter (fun p => pyLower (p.venueRole.getD "") == "away") = [pa] →
        event.participants.filter (fun p => pyLower (p.venueRole.getD "") == "home") = [ph] →
        g.away_team = some (pa.name.getD "") ∧ g.home_team = some (ph.name.getD "")) ∧
    (∀ (markets : List Market) (selections : List Selection) (sport_name : String)
        (event : Event),
        (event.participants.filter (fun p => pyLower (p.venueRole.getD "") == "away") = [] ∨
         event.participants.filter (fun p => pyLower (p.venueRole.getD "") == "home") = []) →
        parseEvent markets selections sport_name event = none) ∧
    (∀ (markets : List Market) (selections : List Selection) (sport_name : String)
        (event : Event) (rest : List Event),
        parseEvent markets selections sport_name event = none →
        parse_games { events := event :: rest, markets := markets, selections := selections }
            sport_name =
          parse_games { events := rest, markets := markets, selections := selections }
            sport_name) := by
  refine ⟨?_, ?_, ?_⟩
  · intro markets selections sport_name event g pa ph h hfa hfh
    obtain ⟨-, -, -, hgeq⟩ := parseEvent_some markets selections sport_name event g h
    have hp := processMarkets_preserves selections
        { sport := sport_name
          game_id := "dk_" ++ event.id.getD ""
          home_team := (findTeams event.participants).2
          away_team := (findTeams event.participants).1
          start_time := startTimeOf event.startEventDate
          status := some (event.status.getD "UNKNOWN")
          markets := [] }
        (markets.filter (fun mkt => mkt.eventId == some (event.id.getD "")))
    have hteams := findTeams_eq event.participants
    constructor
    · rw [hgeq, hp.2.2.2.1]
      show (findTeams event.participants).1 = some (pa.name.getD "")
      rw [hteams.1, hfa]
      simp
    · rw [hgeq, hp.2.2.1]
      show (findTeams event.participants).2 = some (ph.name.getD "")
      rw [hteams.2, hfh]
      simp
  · intro markets selections sport_name event h
    unfold parseEvent
    by_cases hid : event.id.getD "" = ""
    · simp [hid]
    · rw [if_neg hid]
      have hteams := findTeams_eq event.participants
      have hcond : (opt_falsy (findTeams event.participants).1 ||
          opt_falsy (findTeams event.participants).2) = true := by
        rcases h with h | h
        · have h1 : (findTeams event.participants).1 = none := by rw [hteams.1, h]; rfl
          simp [h1, opt_falsy]
        · have h2 : (findTeams event.participants).2 = none := by rw [hteams.2, h]; rfl
          simp [h2, opt_falsy]
      rw [if_pos hcond]
  · intro markets selections sport_name event rest h
    cases rest with
    | nil => simp [parse_games, List.filterMap_cons, h]
    | cons r rs => simp [parse_games, List.filterMap_cons, h]

/-- Witness instantiating every part of claim C3 on concrete events. -/
theorem claim_C3_witness :
    (c3Game.away_team = some "A" ∧ c3Game.home_team = some "B") ∧
    parseEvent [] [] "NBA" c3EventNoHome = none ∧
    parse_games { events := [c3EventNoHome], markets := [], selections := [] } "NBA" =
      parse_games { events := [], markets := [], selections := [] } "NBA" :=
  ⟨claim_C3_participant_roles.1 [] [] "NBA" c3Event c3Game
      { venueRole := some "away", name := some "A" }
      { venueRole := some "home", name := some "B" } (by decide) (by decide) (by decide),
   claim_C3_participant_roles.2.1 [] [] "NBA" c3EventNoHome (Or.inr (by decide)),
   claim_C3_participant_roles.2.2 [] [] "NBA" c3EventNoHome []
     (claim_C3_participant_roles.2.1 [] [] "NBA" c3EventNoHome (Or.inr (by decide)))⟩

/-- C6: start-time parsing is total and non-fatal.  (a) On a string whose only
"Z" is a trailing one, convert_to_datetime parses the string with the "Z"
read as the offset "+00:00".  (b) An absent timestamp, and any timestamp
convert_to_datetime cannot parse, leave the emitted game's start_time = none.
(c) The start timestamp never decides whether the event is emitted.  Totality
itself is by construction: convert_to_datetime is a function into Option. -/
theorem claim_C6_start_time_total :
    (∀ s : String, 'Z' ∉ s.data →
        convert_to_datetime (String.mk (s.data ++ ['Z'])) =
          parseIsoChars (s.data ++ "+00:00".data)) ∧
    (∀ (markets : List Market) (selections : List Selection) (sport_name : String)
        (event : Event) (g : StandardizedGame),
        parseEvent markets selections sport_name event = some g →
        (event.startEventDate = none → g.start_time = none) ∧
        (∀ s, event.startEventDate = some s → convert_to_datetime s = none →
            g.start_time = none)) ∧
    (∀ (markets : List Market) (selections : List Selection) (sport_name : String)
        (event : Event) (x : Option String),
        (parseEvent markets selections sport_name { event with startEventDate := x }).isSome =
          (parseEvent markets selections sport_name event).isSome) := by
  refine ⟨?_, ?_, ?_⟩
  · intro s h
    unfold convert_to_datetime
    show parseIsoChars ((s.data ++ ['Z']).flatMap _) = _
    rw [List.flatMap_append, flatMap_noZ s.data h]
    rfl
  · intro markets selections sport_name event g h
    obtain ⟨-, -, -, hgeq⟩ := parseEvent_some markets selections sport_name event g h
    have hp := processMarkets_preserves selections
        { sport := sport_name
          game_id := "dk_" ++ event.id.getD ""
          home_team := (findTeams event.participants).2
          away_team := (findTeams event.participants).1
          start_time := startTimeOf event.startEventDate
          status := some (event.status.getD "UNKNOWN")
          markets := [] }
        (markets.filter (fun mkt => mkt.eventId == some (event.id.getD "")))
    have hst : g.start_time = startTimeOf event.startEventDate := by
      rw [hgeq, hp.2.2.2.2.1]
    constructor
    · intro hnone; rw [hst, hnone]; rfl
    · intro t hsome hfail
      rw [hst, hsome]
      show (if t = "" then none else convert_to_datetime t) = none
      by_cases ht : t = ""
      · rw [if_pos ht]
      · rw [if_neg ht, hfail]
  · intro markets selections sport_name event x
    obtain ⟨eid, sed, ps, st⟩ := event
    unfold parseEvent
    by_cases hid : eid.getD "" = ""
    · simp [hid]
    · rw [if_neg hid, if_neg hid]
      by_cases hf : (opt_falsy (findTeams ps).1 || opt_falsy (findTeams ps).2) = true
      · rw [if_pos hf, if_pos hf]
      · rw [if_neg hf, if_neg hf]
        simp

/-- Witness instantiating every part of claim C6 on concrete data: the
trailing-Z equation evaluated on a real timestamp, the unparseable-timestamp
case, and the emission independence. -/
theorem claim_C6_witness :
    convert_to_datetime (String.mk ("2025-01-05T19:30:00".data ++ ['Z'])) =
        parseIsoChars ("2025-01-05T19:30:00".data ++ "+00:00".data) ∧
    parseIsoChars ("2025-01-05T19:30:00".data ++ "+00:00".data) =
        some { year := 2025, month := 1, day := 5, hour := 19, minute := 30,
               utcOffsetMinutes := some 0 } ∧
    c6Game.start_time = none ∧
    (parseEvent [] [] "NBA" { c6Event with startEventDate := some "junk" }).isSome =
      (parseEvent [] [] "NBA" c6Event).isSome :=
  ⟨claim_C6_start_time_total.1 "2025-01-05T19:30:00" (by decide),
   by decide,
   (claim_C6_start_time_total.2.1 [] [] "NBA" c6Event c6Game (by decide)).2
     "not a date" rfl (by decide),
   claim_C6_start_time_total.2.2 [] [] "NBA" c6Event (some "junk")⟩

/-- C7: per-selection formatting: a present points value p turns label l into
"l (p)" and an absent one leaves the label unchanged; the output odds are the
american display odds with every U+2212 replaced by an ASCII hyphen. -/
theorem claim_C7_selection_formatting (sel : Selection) (lbl od : String)
    (hl : sel.label = some lbl)
    (ho : (sel.displayOdds.getD {}).american = some od) :
    (parseSelection sel).odds.data =
        od.data.map (fun c => if c = '−' then '-' else c) ∧
    (∀ p, sel.points = some p → (parseSelection sel).label = lbl ++ " (" ++ p ++ ")") ∧
    (sel.points = none → (parseSelection sel).label = lbl) := by
  unfold parseSelection
  rw [hl, ho]
  refine ⟨?_, ?_, ?_⟩
  · cases hp : sel.points <;> simp [hp, replaceMinus]
  · intro p hp; simp [hp]
  · intro hp; simp [hp]

/-- Witness for claim C7: the label gains the points suffix and the
Unicode-minus odds normalise to "-110". -/
theorem claim_C7_witness :
    (parseSelection c7Sel).odds.data =
        "−110".data.map (fun c => if c = '−' then '-' else c) ∧
    (parseSelection c7Sel).label = "Team A (-3.5)" ∧
    (parseSelection c7Sel).odds = "-110" :=
  ⟨(claim_C7_selection_formatting c7Sel "Team A" "−110" rfl rfl).1,
   (claim_C7_selection_formatting c7Sel "Team A" "−110" rfl rfl).2.1 "-3.5" rfl,
   by decide⟩

/-- C9: among the markets of an event sharing one display name, only the last
one's parsed selections survive in the emitted game's markets dictionary
(add_market assigns by key, overwriting earlier same-named markets). -/
theorem claim_C9_last_market_wins (markets : List Market) (selections : List Selection)
    (sport_name : String) (event : Event) (g : StandardizedGame) (k : String) (m : Market)
    (hg : parseEvent markets selections sport_name event = some g)
    (hm : ((markets.filter (fun mkt => mkt.eventId == some (event.id.getD ""))).filter
            (fun mkt => mkt.name.getD "Unknown" == k)).getLast? = some m) :
    dictGet g.markets k = some (parseSelections selections m.id) := by
  obtain ⟨-, -, -, hgeq⟩ := parseEvent_some markets selections sport_name event g hg
  rw [hgeq, dictGet_processMarkets, hm]

/-- Witness for claim C9: with two "Moneyline" markets, the dictionary holds
the parsed selections of the second (last) one. -/
theorem claim_C9_witness :
    dictGet c9Game.markets "Moneyline" =
        some (parseSelections c9Sels (some "m2")) ∧
    parseSelections c9Sels (some "m2") = [{ label := "Y", odds := "+200" }] :=
  ⟨claim_C9_last_market_wins c9Markets c9Sels "NBA" c3Event c9Game "Moneyline"
      { id := some "m2", eventId := some "1", name := some "Moneyline" }
      (by decide) (by decide),
   by decide⟩

/-- C10 counterexample: a selection lacking the label key but carrying a
points value gets output label "Unknown (-3.5)", not the bare default
"Unknown" the claim states for every selection lacking a label key. -/
theorem claim_C10_counterexample :
    (parseSelection ({ points := some "-3.5" } : Selection)).label ≠ "Unknown" ∧
    (parseSelection ({ points := some "-3.5" } : Selection)).label = "Unknown (-3.5)" := by
  decide

/-- C10 as amended: a selection lacking a label key gets label "Unknown" when
it also lacks points, and "Unknown (p)" when its points value is p; a
selection lacking displayOdds, or an american entry inside it, gets odds
"N/A"; and a market lacking a name key is attached under the key "Unknown". -/
theorem claim_C10_defaults (sel : Selection) (mkt : Market) :
    (sel.label = none → sel.points = none → (parseSelection sel).label = "Unknown") ∧
    (∀ p, sel.label = none → sel.points = some p →
        (parseSelection sel).label = "Unknown (" ++ p ++ ")") ∧
    ((sel.displayOdds = none ∨ (sel.displayOdds.getD {}).american = none) →
        (parseSelection sel).odds = "N/A") ∧
    (∀ (selections : List Selection) (game : StandardizedGame),
        mkt.name = none →
        processMarkets selections game [mkt] =
          game.add_market "Unknown" (parseSelections selections mkt.id)) := by
  refine ⟨?_, ?_, ?_, ?_⟩
  · intro hl hp; simp [parseSelection, hl, hp]
  · intro p hl hp
    simp only [parseSelection, hl, hp, Option.getD_none]
    show ("Unknown" ++ " (" ++ p ++ ")" : String) = "Unknown (" ++ p ++ ")"
    congr 1
  · intro h
    have ha : (sel.displayOdds.getD {}).american = none := by
      rcases h with h | h
      · rw [h]; rfl
      · exact h
    have hna : replaceMinus "N/A" = "N/A" := by decide
    cases hp : sel.points <;> simp [parseSelection, ha, hp, hna]
  · intro selections game hn
    simp [processMarkets, hn]

/-- Witness for the amended claim C10, at concrete selections and a concrete
nameless market. -/
theorem claim_C10_witness :
    (parseSelection ({} : Selection)).label = "Unknown" ∧
    (parseSelection ({ label := none, points := some "-3.5" } : Selection)).label =
        "Unknown (-3.5)" ∧
    (parseSelection ({} : Selection)).odds = "N/A" ∧
    processMarkets [] c10Game [{ id := some "m" }] =
      c10Game.add_market "Unknown" (parseSelections [] (some "m")) :=
  ⟨(claim_C10_defaults {} { id := some "m" }).1 rfl rfl,
   (claim_C10_defaults { label := none, points := some "-3.5" } { id := some "m" }).2.1
     "-3.5" rfl rfl,
   (claim_C10_defaults {} { id := some "m" }).2.2.1 (Or.inl rfl),
   (claim_C10_defaults {} ({ id := some "m" } : Market)).2.2.2 [] c10Game rfl⟩

/-- Boolean test agreement: isPrefixOf decides the structural "is a prefix". -/
theorem isPrefixOf_eq (l1 l2 : List Char) : l1.isPrefixOf l2 = true ↔ l1 <+: l2 := by
  simp

/-- Occurring as a prefix of a suffix is occurring inside. -/
theorem infix_of_pre_suf {sep t l : List Char} (h1 : sep <+: t) (h2 : t <:+ l) :
    sep <:+: l := by
  obtain ⟨r, hr⟩ := h1
  obtain ⟨u, hu⟩ := h2
  exact ⟨u, r, by rw [← hu, ← hr]; simp⟩

/-- A prefix that fits inside the left part of an append is a prefix of it. -/
theorem pre_of_append_of_le {p x y : List Char} (h : p <+: x ++ y)
    (hl : p.length ≤ x.length) : p <+: x := by
  rw [List.prefix_iff_eq_take] at h ⊢
  rwa [List.take_append_of_le_length hl] at h

/-- Appending on the right preserves being a suffix. -/
theorem suf_append_right {t a : List Char} (h : t <:+ a) (c : List Char) :
    t ++ c <:+ a ++ c := by
  obtain ⟨u, hu⟩ := h
  exact ⟨u, by rw [← hu]; simp⟩

/-- On input free of the separator, the splitter returns a single piece. -/
theorem pySplitAux_no_marker (s0 : Char) (ss : List Char) :
    ∀ (a acc : List Char) (fuel : Nat), a.length ≤ fuel →
      (∀ t, t ≠ [] → t <:+ a → ¬ ((s0 :: ss) <+: t)) →
      pySplitAux s0 ss fuel acc a = [acc.reverse ++ a] := by
  intro a
  induction a with
  | nil => intro acc fuel hf h; rw [pySplitAux_nil]; simp
  | cons c a ih =>
    intro acc fuel hf h
    cases fuel with
    | zero => simp at hf
    | succ g =>
      have htest : (s0 :: ss).isPrefixOf (c :: a) = false := by
        rw [Bool.eq_false_iff]
        intro hc
        exact h (c :: a) (by simp) (List.suffix_refl _) ((isPrefixOf_eq _ _).mp hc)
      rw [pySplitAux_cons, htest]
      simp only [Bool.false_eq_true, if_false]
      rw [ih (c :: acc) g (by simp at hf; omega)
        (fun t ht hsuf => h t ht (hsuf.trans (List.suffix_cons c a)))]
      simp

/-- On input of the shape a ++ sep ++ b with no separator occurrence starting
inside a, the splitter cuts exactly at the separator. -/
theorem pySplitAux_first_marker (s0 : Char) (ss b : List Char) :
    ∀ (a acc : List Char) (fuel : Nat), (a ++ (s0 :: ss) ++ b).length ≤ fuel →
      (∀ t, t ≠ [] → t <:+ a → ¬ ((s0 :: ss) <+: (t ++ (s0 :: ss) ++ b))) →
      pySplitAux s0 ss fuel acc (a ++ (s0 :: ss) ++ b) =
        (acc.reverse ++ a) :: pySplitAux s0 ss b.length [] b := by
  intro a
  induction a with
  | nil =>
    intro acc fuel hf h
    have hshape : (([] : List Char) ++ (s0 :: ss) ++ b) = s0 :: (ss ++ b) := by simp
    rw [hshape] at hf ⊢
    cases fuel with
    | zero => simp at hf
    | succ g =>
      have htest : (s0 :: ss).isPrefixOf (s0 :: (ss ++ b)) = true := by
        rw [isPrefixOf_eq]
        exact ⟨b, by simp⟩
      rw [pySplitAux_cons, htest]
      simp only [if_true]
      rw [List.drop_left ss b]
      rw [pySplitAux_fuel s0 ss g b b.length []
        (by simp only [List.length_cons, List.length_append] at hf; omega) (Nat.le_refl _)]
      simp
  | cons c a ih =>
    intro acc fuel hf h
    have hshape : ((c :: a) ++ (s0 :: ss) ++ b) = c :: (a ++ (s0 :: ss) ++ b) := by simp
    rw [hshape] at hf ⊢
    cases fuel with
    | zero => simp at hf
    | succ g =>
      have htest : (s0 :: ss).isPrefixOf (c :: (a ++ (s0 :: ss) ++ b)) = false := by
        rw [Bool.eq_false_iff]
        intro hc
        have hpre := (isPrefixOf_eq _ _).mp hc
        apply h (c :: a) (by simp) (List.suffix_refl _)
        simpa using hpre
      rw [pySplitAux_cons, htest]
      simp only [Bool.false_eq_true, if_false]
      rw [ih (c :: acc) g (by simp only [List.length_cons] at hf; omega)
        (fun t ht hsuf => h t ht (hsuf.trans (List.suffix_cons c a)))]
      simp

/-- Unfolding pySplit through a non-empty separator. -/
theorem pySplit_eq (sep s : String) (s0 : Char) (ss : List Char)
    (h : sep.data = s0 :: ss) :
    pySplit sep s = (pySplitAux s0 ss s.data.length [] s.data).map String.mk := by
  unfold pySplit
  rw [h]

/-- From "no occurrence of sep inside a ++ sep-minus-its-last-character" to
the positional condition the splitter induction needs. -/
theorem no_marker_cond (s0 : Char) (ss ad bd : List Char)
    (ha : ¬ ((s0 :: ss) <:+: (ad ++ (s0 :: ss).dropLast))) :
    ∀ t, t ≠ [] → t <:+ ad → ¬ ((s0 :: ss) <+: (t ++ (s0 :: ss) ++ bd)) := by
  intro t ht hsuf hpre
  apply ha
  have htlen : 1 ≤ t.length := by
    cases t with
    | nil => exact absurd rfl ht
    | cons x xs => simp
  have hlen : (s0 :: ss).length ≤ (t ++ (s0 :: ss).dropLast).length := by
    simp only [List.length_append, List.length_cons, List.length_dropLast]
    omega
  have hfull : (s0 :: ss).dropLast ++ [(s0 :: ss).getLast (by simp)] = s0 :: ss :=
    List.dropLast_append_getLast (by simp)
  have hre : t ++ (s0 :: ss) ++ bd =
      (t ++ (s0 :: ss).dropLast) ++ ([(s0 :: ss).getLast (by simp)] ++ bd) := by
    conv_lhs => rw [← hfull]
    simp
  rw [hre] at hpre
  have hpre2 : (s0 :: ss) <+: (t ++ (s0 :: ss).dropLast) := pre_of_append_of_le hpre hlen
  exact infix_of_pre_suf hpre2 (suf_append_right hsuf _)

/-- The league-id segment: on a route of the shape a ++ "/league/" ++ b where
the marker occurs only at that position, extractLeagueId returns b. -/
theorem extractLeagueId_spec (a b : String)
    (ha : ¬ ("/league/".data <:+: (a.data ++ "/league".data)))
    (hb : ¬ ("/league/".data <:+: b.data)) :
    extractLeagueId (a ++ "/league/" ++ b) = some b := by
  obtain ⟨bd⟩ := b
  have hsep : ("/league/" : String).data = '/' :: "league/".data := by decide
  have hdl : ('/' :: "league/".data).dropLast = "/league".data := by decide
  unfold extractLeagueId
  rw [pySplit_eq _ _ '/' "league/".data hsep]
  have hdata : (a ++ "/league/" ++ String.mk bd).data =
      a.data ++ ('/' :: "league/".data) ++ bd := by
    rw [String.data_append, String.data_append, hsep]
  rw [hdata]
  rw [pySplitAux_first_marker '/' "league/".data bd a.data [] _ (Nat.le_refl _)
    (by
      apply no_marker_cond
      rw [hdl]
      rw [hsep] at ha
      exact ha)]
  rw [pySplitAux_no_marker '/' "league/".data bd [] bd.length (Nat.le_refl _)
    (by
      intro t ht hsuf hpre
      apply hb
      rw [hsep]
      exact infix_of_pre_suf hpre hsuf)]
  simp

/-- The inner loop returns the first matching override, mapped to its result. -/
theorem findInOverrides_eq (t : String) (ovs : List Override) :
    findInOverrides t ovs =
      (ovs.find? (fun ov => ov.seoRoute == some t)).map
        (fun ov => (ov.templateId, extractLeagueId (ov.route.getD ""))) := by
  induction ovs with
  | nil => rfl
  | cons ov rest ih =>
    by_cases h : (ov.seoRoute == some t) = true
    · simp [findInOverrides, List.find?_cons, h]
    · simp only [Bool.not_eq_true] at h
      simp [findInOverrides, List.find?_cons, h, ih]

/-- The outer loop searches the concatenated overrides of the "league"-keyed
route groups for the first seoRoute match. -/
theorem findInRouteGroups_eq (t : String) (rgs : List RouteGroup) :
    findInRouteGroups t rgs =
      match ((rgs.filter (fun rg => rg.key == some "league")).flatMap
          RouteGroup.overrides).find? (fun ov => ov.seoRoute == some t) with
      | some ov => (ov.templateId, extractLeagueId (ov.route.getD ""))
      | none => (none, none) := by
  induction rgs with
  | nil => rfl
  | cons rg rest ih =>
    by_cases h : (rg.key == some "league") = true
    · rw [findInRouteGroups, if_pos h, findInOverrides_eq]
      rw [List.filter_cons, if_pos h, List.flatMap_cons, List.find?_append]
      cases hov : rg.overrides.find? (fun ov => ov.seoRoute == some t) with
      | some ov => simp
      | none => simp [ih]
    · rw [findInRouteGroups, if_neg (by simpa using h)]
      rw [List.filter_cons, if_neg (by simpa using h)]
      exact ih

/-- C4: with a route table entry for the sport, find_league_info returns, for
the first override with matching seoRoute among the "league"-keyed route
groups, its templateId paired with the league id cut out of its route after
the "/league/" marker; a sport without a table entry, or a manifest without a
match, gives (none, none). -/
theorem claim_C4_league_resolution :
    (∀ (manifest : Manifest) (sport target : String),
        LEAGUE_ROUTES sport = some target →
        find_league_info manifest sport =
          match ((manifest.routes.filter (fun rg => rg.key == some "league")).flatMap
              RouteGroup.overrides).find? (fun ov => ov.seoRoute == some target) with
          | some ov => (ov.templateId, extractLeagueId (ov.route.getD ""))
          | none => (none, none)) ∧
    (∀ a b : String,
        ¬ ("/league/".data <:+: (a.data ++ "/league".data)) →
        ¬ ("/league/".data <:+: b.data) →
        extractLeagueId (a ++ "/league/" ++ b) = some b) ∧
    (∀ (manifest : Manifest) (sport : String),
        LEAGUE_ROUTES sport = none →
        find_league_info manifest sport = (none, none)) := by
  refine ⟨?_, extractLeagueId_spec, ?_⟩
  · intro manifest sport target h
    unfold find_league_info
    rw [h]
    exact findInRouteGroups_eq target manifest.routes
  · intro manifest sport h
    unfold find_league_info
    rw [h]

/-- Witness for claim C4 at concrete data: resolution of the NFL route, the
league-id cut, and the failure for an unmapped sport. -/
theorem claim_C4_witness :
    find_league_info c4Manifest "NFL" = (some "tmpl88", some "88808") ∧
    extractLeagueId ("/sport/2" ++ "/league/" ++ "88808") = some "88808" ∧
    find_league_info c4Manifest "XFL" = (none, none) :=
  ⟨(claim_C4_league_resolution.1 c4Manifest "NFL" "/leagues/football/nfl" rfl).trans
      (by decide),
   claim_C4_league_resolution.2.1 "/sport/2" "88808" (by decide) (by decide),
   claim_C4_league_resolution.2.2 c4Manifest "XFL" rfl⟩

/-- Unfolding of the loop on the empty candidate list. -/
theorem try_nil (fm : String → Option RawData) (league sub : String) :
    try_market_queries fm league sub [] = (none, []) := rfl

/-- Unfolding of the loop on a non-empty candidate list. -/
theorem try_cons (fm : String → Option RawData) (league sub : String)
    (q : MarketQuery) (rest : List MarketQuery) :
    try_market_queries fm league sub (q :: rest) =
      if isEligible q then
        match fm (marketUrlOf league sub q) with
        | some market_data =>
          if market_data.events ≠ [] then (some market_data, [marketUrlOf league sub q])
          else ((try_market_queries fm league sub rest).1,
                marketUrlOf league sub q :: (try_market_queries fm league sub rest).2)
        | none => ((try_market_queries fm league sub rest).1,
                   marketUrlOf league sub q :: (try_market_queries fm league sub rest).2)
      else try_market_queries fm league sub rest := rfl

/-- An ineligible candidate is skipped without a fetch. -/
theorem try_skip (fm : String → Option RawData) (league sub : String)
    (q : MarketQuery) (rest : List MarketQuery) (h : isEligible q = false) :
    try_market_queries fm league sub (q :: rest) =
      try_market_queries fm league sub rest := by
  rw [try_cons, h]
  simp

/-- An eligible candidate whose fetch fails contributes its URL to the trace
and passes control to the rest. -/
theorem try_fail (fm : String → Option RawData) (league sub : String)
    (q : MarketQuery) (rest : List MarketQuery) (h1 : isEligible q = true)
    (h2 : fetchFails fm league sub q) :
    try_market_queries fm league sub (q :: rest) =
      ((try_market_queries fm league sub rest).1,
        marketUrlOf league sub q :: (try_market_queries fm league sub rest).2) := by
  rw [try_cons, h1, if_pos rfl]
  rcases h2 with h2 | ⟨md, hmd, hev⟩
  · rw [h2]
  · rw [hmd]
    simp [hev]

/-- An eligible candidate whose fetch yields a payload with non-empty events
array ends the loop at once, its URL being the last fetch. -/
theorem try_hit (fm : String → Option RawData) (league sub : String)
    (q : MarketQuery) (rest : List MarketQuery) (md : RawData)
    (h1 : isEligible q = true) (h2 : fm (marketUrlOf league sub q) = some md)
    (h3 : md.events ≠ []) :
    try_market_queries fm league sub (q :: rest) =
      (some md, [marketUrlOf league sub q]) := by
  rw [try_cons, h1, if_pos rfl, h2]
  simp [h3]

/-- Under a resolving environment (manifest fetched, league found with truthy
ids, template fetched, subcategory known), get_games_for_sport is exactly the
candidate loop over the extracted queries. -/
theorem get_games_trace_resolved (env : NetEnv) (sport : String)
    (manifest : Manifest) (tid lid : String) (tmpl : Template) (sub : String)
    (h1 : env.fetchManifest = some manifest)
    (h2 : find_league_info manifest sport = (some tid, some lid))
    (h3 : tid ≠ "") (h4 : lid ≠ "")
    (h5 : env.fetchTemplate (TEMPLATE_URL_BASE ++ tid ++ "?format=json") = some tmpl)
    (h6 : SUBCATEGORY_IDS sport = some sub) :
    get_games_trace env sport =
      try_market_queries env.fetchMarket lid sub (extract_all_market_queries tmpl) := by
  unfold get_games_trace
  rw [h1]
  dsimp only
  rw [h2]
  dsimp only
  have ht : opt_falsy (some tid) = false := by simp [opt_falsy, h3]
  have hl : opt_falsy (some lid) = false := by simp [opt_falsy, h4]
  rw [ht, hl, if_neg (by decide : ¬((false || false) = true))]
  dsimp only [Option.getD_some]
  rw [h5]
  dsimp only
  rw [h6]

/-- C2: candidates are tried in order; the first fetched payload with
non-empty events is returned at once, the trace showing no later fetch; and
when every eligible candidate fails (missing payload or empty events), the
loop - and get_games_for_sport with it - returns none. -/
theorem claim_C2_first_success :
    (∀ (fm : String → Option RawData) (league sub : String)
        (pre post : List MarketQuery) (q : MarketQuery) (md : RawData),
        (∀ q1 ∈ pre, isEligible q1 = true → fetchFails fm league sub q1) →
        isEligible q = true →
        fm (marketUrlOf league sub q) = some md →
        md.events ≠ [] →
        try_market_queries fm league sub (pre ++ q :: post) =
          (some md, eligibleUrls league sub pre ++ [marketUrlOf league sub q])) ∧
    (∀ (fm : String → Option RawData) (league sub : String) (qs : List MarketQuery),
        (∀ q1 ∈ qs, isEligible q1 = true → fetchFails fm league sub q1) →
        try_market_queries fm league sub qs = (none, eligibleUrls league sub qs)) ∧
    (∀ (env : NetEnv) (sport : String) (manifest : Manifest) (tid lid : String)
        (tmpl : Template) (sub : String),
        env.fetchManifest = some manifest →
        find_league_info manifest sport = (some tid, some lid) →
        tid ≠ "" → lid ≠ "" →
        env.fetchTemplate (TEMPLATE_URL_BASE ++ tid ++ "?format=json") = some tmpl →
        SUBCATEGORY_IDS sport = some sub →
        (∀ q1 ∈ extract_all_market_queries tmpl,
            isEligible q1 = true → fetchFails env.fetchMarket lid sub q1) →
        get_games_for_sport env sport = none) := by
  have part2 : ∀ (fm : String → Option RawData) (league sub : String)
      (qs : List MarketQuery),
      (∀ q1 ∈ qs, isEligible q1 = true → fetchFails fm league sub q1) →
      try_market_queries fm league sub qs = (none, eligibleUrls league sub qs) := by
    intro fm league sub qs
    induction qs with
    | nil => intro h; rw [try_nil]; rfl
    | cons q rest ih =>
      intro h
      by_cases he : isEligible q = true
      · rw [try_fail fm league sub q rest he (h q (by simp) he)]
        rw [ih (fun q1 h1 h2 => h q1 (by simp [h1]) h2)]
        simp [eligibleUrls, List.filter_cons, he]
      · rw [try_skip fm league sub q rest (Bool.eq_false_iff.mpr he)]
        rw [ih (fun q1 h1 h2 => h q1 (by simp [h1]) h2)]
        simp [eligibleUrls, List.filter_cons, Bool.eq_false_iff.mpr he]
  refine ⟨?_, part2, ?_⟩
  · intro fm league sub pre
    induction pre with
    | nil =>
      intro post q md hpre he hf hev
      rw [List.nil_append, try_hit fm league sub q post md he hf hev]
      rfl
    | cons q1 pre ih =>
      intro post q md hpre he hf hev
      rw [List.cons_append]
      by_cases he1 : isEligible q1 = true
      · rw [try_fail fm league sub q1 _ he1 (hpre q1 (by simp) he1)]
        rw [ih post q md (fun q2 h1 h2 => hpre q2 (by simp [h1]) h2) he hf hev]
        simp [eligibleUrls, List.filter_cons, he1]
      · rw [try_skip fm league sub q1 _ (Bool.eq_false_iff.mpr he1)]
        rw [ih post q md (fun q2 h1 h2 => hpre q2 (by simp [h1]) h2) he hf hev]
        simp [eligibleUrls, List.filter_cons, Bool.eq_false_iff.mpr he1]
  · intro env sport manifest tid lid tmpl sub h1 h2 h3 h4 h5 h6 hall
    unfold get_games_for_sport
    rw [get_games_trace_resolved env sport manifest tid lid tmpl sub h1 h2 h3 h4 h5 h6]
    rw [part2 env.fetchMarket lid sub (extract_all_market_queries tmpl) hall]

/-- Witness for claim C2: the success case stops at the first non-empty
payload without touching the later candidate, the all-fail case returns none
with every eligible URL attempted, and a fully failing environment makes
get_games_for_sport return none. -/
theorem claim_C2_witness :
    try_market_queries c2Fm "42" "4511" ([c2BadQuery] ++ c2GoodQuery :: []) =
      (some c2Payload,
        eligibleUrls "42" "4511" [c2BadQuery] ++ [marketUrlOf "42" "4511" c2GoodQuery]) ∧
    try_market_queries (fun _ => none) "42" "4511" [c2BadQuery, c2GoodQuery] =
      (none, eligibleUrls "42" "4511" [c2BadQuery, c2GoodQuery]) ∧
    get_games_for_sport c2Env "NBA" = none :=
  ⟨claim_C2_first_success.1 c2Fm "42" "4511" [c2BadQuery] [] c2GoodQuery c2Payload
      (by
        intro q1 h1 h2
        simp only [List.mem_singleton] at h1
        subst h1
        exact absurd h2 (by decide))
      (by decide)
      (by unfold c2Fm; rw [if_pos rfl])
      (by decide),
   claim_C2_first_success.2.1 (fun _ => none) "42" "4511" [c2BadQuery, c2GoodQuery]
      (fun q1 h1 h2 => Or.inl rfl),
   claim_C2_first_success.2.2 c2Env "NBA" c2Manifest "t1" "42" c2Template "4511"
      rfl (by decide) (by decide) (by decide)
      (by
        show (if TEMPLATE_URL_BASE ++ "t1" ++ "?format=json" =
            TEMPLATE_URL_BASE ++ "t1" ++ "?format=json" then some c2Template else none) =
          some c2Template
        rw [if_pos rfl])
      rfl
      (fun q1 h1 h2 => Or.inl rfl)⟩

/-- The extraction loop body in terms of the static conditions. -/
theorem extractStep_eq (queries : List MarketQuery) (ds : DataSet) :
    extractStep queries ds =
      if eligibleSet ds = true then queries ++ [toMarketQuery ds] else queries := by
  unfold extractStep
  by_cases hp : (ds.provider == some "Markets") = true
  · by_cases hq : ((ds.parameters.getD {}).marketsQuery.getD "" ≠ "" ∧
        (ds.parameters.getD {}).eventsQuery.getD "" ≠ "")
    · have he : eligibleSet ds = true := by
        unfold eligibleSet
        rw [hp]
        simp [hq.1, hq.2]
      simp [hp, hq, he, toMarketQuery]
    · have he : eligibleSet ds = false := by
        unfold eligibleSet
        rw [hp]
        rcases not_and_or.mp hq with h | h
        · have h2 : (ds.parameters.getD {}).marketsQuery.getD "" = "" := not_not.mp h
          simp [h2]
        · have h2 : (ds.parameters.getD {}).eventsQuery.getD "" = "" := not_not.mp h
          simp [h2]
      simp [hp, hq, he]
  · have he : eligibleSet ds = false := by
      unfold eligibleSet
      rw [Bool.eq_false_iff.mpr hp]
      simp
    simp [Bool.eq_false_iff.mpr hp, he]

/-- The extraction fold is the filter-then-map of its static conditions,
preserving template order. -/
theorem extract_foldl (sets : List DataSet) :
    ∀ acc : List MarketQuery,
      sets.foldl extractStep acc = acc ++ (sets.filter eligibleSet).map toMarketQuery := by
  induction sets with
  | nil => intro acc; simp
  | cons ds rest ih =>
    intro acc
    rw [List.foldl_cons, extractStep_eq, List.filter_cons]
    by_cases he : eligibleSet ds = true
    · rw [if_pos he, if_pos he, ih]
      simp
    · rw [if_neg he, if_neg he]
      exact ih acc

/-- C5 counterexample: in an environment whose first eligible candidate
fetches a payload with non-empty events, the second data set satisfies all
four conditions of the claim (provider "Markets", both queries non-empty, no
"eventId", with "@subcategoryId") and yet leads to no market-data fetch: the
fetch trace holds only the first candidate's URL.  The claim's "exactly
when" therefore fails; only the forward direction holds. -/
theorem claim_C5_counterexample :
    (c5ds2.provider == some "Markets") = true ∧
    (c5ds2.parameters.getD {}).eventsQuery.getD "" ≠ "" ∧
    (c5ds2.parameters.getD {}).marketsQuery.getD "" ≠ "" ∧
    pyContains "eventId" ((c5ds2.parameters.getD {}).eventsQuery.getD "") = false ∧
    pyContains "@subcategoryId" ((c5ds2.parameters.getD {}).eventsQuery.getD "") = true ∧
    (get_games_trace c5Env "NBA").2 = [marketUrlOf "42" "4511" c5q1] ∧
    marketUrlOf "42" "4511" c5q2 ∉ (get_games_trace c5Env "NBA").2 := by
  decide

/-- C5 as amended: a data set yields a candidate exactly when provider is
"Markets" and both queries are non-empty, in template order; and a candidate
is fetch-attempted exactly when it is eligible (events query without
"eventId" and with "@subcategoryId") and every earlier eligible candidate's
fetch failed - the trace is the eligible candidates up to and including the
first success. -/
theorem claim_C5_eligibility_only_if :
    (∀ t : Template,
        extract_all_market_queries t =
          (((t.data.map TemplateData.sets).getD []).filter eligibleSet).map toMarketQuery) ∧
    (∀ (fm : String → Option RawData) (league sub : String) (qs : List MarketQuery),
        (try_market_queries fm league sub qs).2 =
          (takeUntilSuccess fm league sub (qs.filter isEligible)).map
            (marketUrlOf league sub)) ∧
    (∀ (env : NetEnv) (sport : String) (manifest : Manifest) (tid lid : String)
        (tmpl : Template) (sub : String),
        env.fetchManifest = some manifest →
        find_league_info manifest sport = (some tid, some lid) →
        tid ≠ "" → lid ≠ "" →
        env.fetchTemplate (TEMPLATE_URL_BASE ++ tid ++ "?format=json") = some tmpl →
        SUBCATEGORY_IDS sport = some sub →
        (get_games_trace env sport).2 =
          (takeUntilSuccess env.fetchMarket lid sub
            ((extract_all_market_queries tmpl).filter isEligible)).map
            (marketUrlOf lid sub)) := by
  have part2 : ∀ (fm : String → Option RawData) (league sub : String)
      (qs : List MarketQuery),
      (try_market_queries fm league sub qs).2 =
        (takeUntilSuccess fm league sub (qs.filter isEligible)).map
          (marketUrlOf league sub) := by
    intro fm league sub qs
    induction qs with
    | nil => rfl
    | cons q rest ih =>
      by_cases he : isEligible q = true
      · rw [List.filter_cons, if_pos he]
        cases hf : fm (marketUrlOf league sub q) with
        | some md =>
          by_cases hev : md.events = []
          · rw [try_fail fm league sub q rest he (Or.inr ⟨md, hf, hev⟩)]
            show marketUrlOf league sub q :: (try_market_queries fm league sub rest).2 = _
            rw [ih]
            show _ = ((match fm (marketUrlOf league sub q) with
              | some md => if md.events ≠ [] then [q]
                  else q :: takeUntilSuccess fm league sub (rest.filter isEligible)
              | none => q :: takeUntilSuccess fm league sub (rest.filter isEligible)).map
                (marketUrlOf league sub))
            rw [hf]
            simp [hev]
          · rw [try_hit fm league sub q rest md he hf hev]
            show [marketUrlOf league sub q] = _
            show _ = ((match fm (marketUrlOf league sub q) with
              | some md => if md.events ≠ [] then [q]
                  else q :: takeUntilSuccess fm league sub (rest.filter isEligible)
              | none => q :: takeUntilSuccess fm league sub (rest.filter isEligible)).map
                (marketUrlOf league sub))
            rw [hf]
            simp [hev]
        | none =>
          rw [try_fail fm league sub q rest he (Or.inl hf)]
          show marketUrlOf league sub q :: (try_market_queries fm league sub rest).2 = _
          rw [ih]
          show _ = ((match fm (marketUrlOf league sub q) with
            | some md => if md.events ≠ [] then [q]
                else q :: takeUntilSuccess fm league sub (rest.filter isEligible)
            | none => q :: takeUntilSuccess fm league sub (rest.filter isEligible)).map
              (marketUrlOf league sub))
          rw [hf]
          simp
      · rw [try_skip fm league sub q rest (Bool.eq_false_iff.mpr he)]
        rw [List.filter_cons, if_neg (by simpa using he)]
        exact ih
  refine ⟨?_, part2, ?_⟩
  · intro t
    unfold extract_all_market_queries
    exact extract_foldl _ []
  · intro env sport manifest tid lid tmpl sub h1 h2 h3 h4 h5 h6
    rw [get_games_trace_resolved env sport manifest tid lid tmpl sub h1 h2 h3 h4 h5 h6]
    exact part2 env.fetchMarket lid sub (extract_all_market_queries tmpl)

/-- Witness for the amended claim C5: the extraction and the trace
characterisation evaluated on the two-candidate environment. -/
theorem claim_C5_witness :
    extract_all_market_queries c5Template = [c5q1, c5q2] ∧
    (get_games_trace c5Env "NBA").2 =
      (takeUntilSuccess c5Env.fetchMarket "42" "4511"
        ((extract_all_market_queries c5Template).filter isEligible)).map
        (marketUrlOf "42" "4511") :=
  ⟨(claim_C5_eligibility_only_if.1 c5Template).trans (by decide),
   claim_C5_eligibility_only_if.2.2 c5Env "NBA" c5Manifest "t1" "42" c5Template "4511"
     rfl (by decide) (by decide) (by decide)
     (by
       show (if TEMPLATE_URL_BASE ++ "t1" ++ "?format=json" =
           TEMPLATE_URL_BASE ++ "t1" ++ "?format=json" then some c5Template else none) =
         some c5Template
       rw [if_pos rfl])
     rfl⟩

/-- Unicode scalar values are below 0x110000. -/
theorem char_toNat_lt (c : Char) : c.toNat < 1114112 := by
  rcases c.valid with h | h
  · exact Nat.lt_trans h (by decide)
  · exact h.2

/-- Every byte of a UTF-8 encoding is a byte. -/
theorem utf8Bytes_lt (c : Char) : ∀ b ∈ utf8Bytes c, b < 256 := by
  intro b hb
  have hv := char_toNat_lt c
  unfold utf8Bytes at hb
  by_cases h1 : c.toNat < 0x80
  · rw [if_pos h1] at hb
    simp only [List.mem_singleton] at hb
    omega
  · rw [if_neg h1] at hb
    by_cases h2 : c.toNat < 0x800
    · rw [if_pos h2] at hb
      simp only [List.mem_cons, List.not_mem_nil, or_false] at hb
      rcases hb with hb | hb <;> omega
    · rw [if_neg h2] at hb
      by_cases h3 : c.toNat < 0x10000
      · rw [if_pos h3] at hb
        simp only [List.mem_cons, List.not_mem_nil, or_false] at hb
        rcases hb with hb | hb | hb <;> omega
      · rw [if_neg h3] at hb
        simp only [List.mem_cons, List.not_mem_nil, or_false] at hb
        rcases hb with hb | hb | hb | hb <;> omega

/-- The hex digits used by the encoder decode back. -/
theorem hexVal_hexDig : ∀ n, n < 16 → hexVal (hexDig n) = some n := by decide

/-- Facts about the character a safe byte passes through unchanged. -/
theorem safe_char_facts : ∀ b, b < 256 → safeByte b = true →
    Char.ofNat b ≠ '%' ∧ Char.ofNat b ≠ '+' ∧ safeByte (Char.ofNat b).toNat = true ∧
    (Char.ofNat b).toNat = b := by decide

/-- One encoded byte decodes back in front of any continuation. -/
theorem decBytes_encByte (b : Nat) (hb : b < 256) (cs : List Char) :
    decBytes (encByte b ++ cs) = (decBytes cs).map (fun bs => b :: bs) := by
  by_cases hs : safeByte b = true
  · obtain ⟨hf1, hf2, hf3, hf4⟩ := safe_char_facts b hb hs
    unfold encByte
    rw [if_pos hs]
    show decBytes (Char.ofNat b :: cs) = _
    rw [decBytes.eq_def]
    dsimp only
    rw [if_neg hf1, if_neg hf2, if_pos hf3, hf4]
  · by_cases h32 : b = 32
    · subst h32
      unfold encByte
      rw [if_neg (by decide), if_pos rfl]
      show decBytes ('+' :: cs) = _
      rw [decBytes.eq_def]
      dsimp only
      rw [if_neg (by decide), if_pos rfl]
    · unfold encByte
      rw [if_neg hs, if_neg h32]
      show decBytes ('%' :: hexDig (b / 16) :: hexDig (b % 16) :: cs) = _
      rw [decBytes.eq_def]
      dsimp only
      rw [if_pos rfl]
      simp only [hexVal_hexDig (b / 16) (by omega), hexVal_hexDig (b % 16) (by omega)]
      have hr : 16 * (b / 16) + b % 16 = b := by omega
      rw [hr]

/-- The percent decoder inverts the encoder on byte lists. -/
theorem decBytes_flatMap (bs : List Nat) (h : ∀ b ∈ bs, b < 256) :
    decBytes (bs.flatMap encByte) = some bs := by
  induction bs with
  | nil => rfl
  | cons b rest ih =>
    rw [List.flatMap_cons, decBytes_encByte b (h b (by simp)) _]
    rw [ih (fun b1 h1 => h b1 (by simp [h1]))]
    rfl

/-- One encoded character decodes back in front of any continuation. -/
theorem decUtf8_utf8Bytes (c : Char) (bs : List Nat) :
    decUtf8 (utf8Bytes c ++ bs) = (decUtf8 bs).map (fun cs => c :: cs) := by
  have hofn : Char.ofNat c.toNat = c := Char.ofNat_toNat c
  unfold utf8Bytes
  by_cases h1 : c.toNat < 0x80
  · rw [if_pos h1]
    show decUtf8 (c.toNat :: bs) = _
    rw [decUtf8.eq_def]
    dsimp only
    rw [if_pos h1, hofn]
  · rw [if_neg h1]
    by_cases h2 : c.toNat < 0x800
    · rw [if_pos h2]
      show decUtf8 ((0xC0 + c.toNat / 64) :: (0x80 + c.toNat % 64) :: bs) = _
      rw [decUtf8.eq_def]
      dsimp only
      rw [if_neg (by omega), if_pos (by omega)]
      have hr : (0xC0 + c.toNat / 64 - 0xC0) * 64 + (0x80 + c.toNat % 64 - 0x80) =
          c.toNat := by omega
      rw [hr, hofn]
    · rw [if_neg h2]
      by_cases h3 : c.toNat < 0x10000
      · rw [if_pos h3]
        show decUtf8 ((0xE0 + c.toNat / 4096) :: (0x80 + c.toNat / 64 % 64) ::
            (0x80 + c.toNat % 64) :: bs) = _
        rw [decUtf8.eq_def]
        dsimp only
        rw [if_neg (by omega), if_neg (by omega), if_pos (by omega)]
        have hr : (0xE0 + c.toNat / 4096 - 0xE0) * 4096 +
            (0x80 + c.toNat / 64 % 64 - 0x80) * 64 + (0x80 + c.toNat % 64 - 0x80) =
            c.toNat := by omega
        rw [hr, hofn]
      · rw [if_neg h3]
        show decUtf8 ((0xF0 + c.toNat / 0x40000) :: (0x80 + c.toNat / 4096 % 64) ::
            (0x80 + c.toNat / 64 % 64) :: (0x80 + c.toNat % 64) :: bs) = _
        rw [decUtf8.eq_def]
        dsimp only
        rw [if_neg (by omega), if_neg (by omega), if_neg (by omega)]
        have hr : (0xF0 + c.toNat / 0x40000 - 0xF0) * 0x40000 +
            (0x80 + c.toNat / 4096 % 64 - 0x80) * 4096 +
            (0x80 + c.toNat / 64 % 64 - 0x80) * 64 + (0x80 + c.toNat % 64 - 0x80) =
            c.toNat := by omega
        rw [hr, hofn]

/-- The UTF-8 decoder inverts the encoder on character lists. -/
theorem decUtf8_flatMap (cs : List Char) :
    decUtf8 (cs.flatMap utf8Bytes) = some cs := by
  induction cs with
  | nil => rfl
  | cons c rest ih =>
    rw [List.flatMap_cons, decUtf8_utf8Bytes c _, ih]
    rfl

/-- Two strings with the same character data are equal. -/
theorem string_data_inj (s t : String) (h : s.data = t.data) : s = t := by
  obtain ⟨d1⟩ := s
  obtain ⟨d2⟩ := t
  exact congrArg String.mk h

/-- quote_plus is injective: its output decodes back to the input. -/
theorem quote_plus_inj (l1 l2 : String) (h : quote_plus l1 = quote_plus l2) :
    l1 = l2 := by
  have hd : ((l1.data.flatMap utf8Bytes).flatMap encByte) =
      ((l2.data.flatMap utf8Bytes).flatMap encByte) := congrArg String.data h
  have hb1 := decBytes_flatMap (l1.data.flatMap utf8Bytes)
    (fun b hb => by
      rw [List.mem_flatMap] at hb
      obtain ⟨c, -, hbc⟩ := hb
      exact utf8Bytes_lt c b hbc)
  have hb2 := decBytes_flatMap (l2.data.flatMap utf8Bytes)
    (fun b hb => by
      rw [List.mem_flatMap] at hb
      obtain ⟨c, -, hbc⟩ := hb
      exact utf8Bytes_lt c b hbc)
  have hbytes : some (l1.data.flatMap utf8Bytes) = some (l2.data.flatMap utf8Bytes) := by
    rw [← hb1, ← hb2, hd]
  injection hbytes with hbytes
  have hc1 := decUtf8_flatMap l1.data
  have hc2 := decUtf8_flatMap l2.data
  have hchars : some l1.data = some l2.data := by
    rw [← hc1, ← hc2, hbytes]
  injection hchars with hchars
  exact string_data_inj l1 l2 hchars

/-- quote_plus output characters are never '&' or '?'. -/
theorem encByte_chars : ∀ b, b < 256 → ∀ x ∈ encByte b, x ≠ '&' ∧ x ≠ '?' := by
  decide

/-- quote_plus output never contains '&' or '?'. -/
theorem qp_chars (s : String) : ∀ x ∈ (quote_plus s).data, x ≠ '&' ∧ x ≠ '?' := by
  intro x hx
  have hx2 : x ∈ (s.data.flatMap utf8Bytes).flatMap encByte := hx
  rw [List.mem_flatMap] at hx2
  obtain ⟨b, hb, hxb⟩ := hx2
  rw [List.mem_flatMap] at hb
  obtain ⟨c, -, hbc⟩ := hb
  exact encByte_chars b (utf8Bytes_lt c b hbc) x hxb

/-- A key=value piece never contains '&' or '?'. -/
theorem piece_chars (kv : String × String) :
    ∀ x ∈ (pieceOf kv).data, x ≠ '&' ∧ x ≠ '?' := by
  intro x hx
  unfold pieceOf at hx
  rw [String.data_append, String.data_append] at hx
  simp only [List.mem_append] at hx
  rcases hx with (hx | hx) | hx
  · exact qp_chars _ x hx
  · simp only [List.mem_singleton] at hx
    subst hx
    exact ⟨by decide, by decide⟩
  · exact qp_chars _ x hx

/-- The urlencoded query string never contains '?'. -/
theorem urlencode_chars (ps : List (String × String)) :
    ∀ x ∈ (urlencode ps).data, x ≠ '?' := by
  induction ps with
  | nil => intro x hx; simp [urlencode] at hx
  | cons kv rest ih =>
    cases rest with
    | nil =>
      intro x hx
      exact (piece_chars kv x hx).2
    | cons kv2 rest2 =>
      intro x hx
      have hx2 : x ∈ (pieceOf kv ++ "&" ++ urlencode (kv2 :: rest2)).data := hx
      rw [String.data_append, String.data_append] at hx2
      simp only [List.mem_append] at hx2
      rcases hx2 with (hx2 | hx2) | hx2
      · exact (piece_chars kv x hx2).2
      · simp only [List.mem_singleton] at hx2
        subst hx2
        decide
      · exact ih x hx2

/-- Splitting on a single-character separator absent from the string is the
identity. -/
theorem pySplit_one (sep : String) (s0 : Char) (hsep : sep.data = [s0])
    (p : String) (hp : s0 ∉ p.data) : pySplit sep p = [p] := by
  rw [pySplit_eq sep p s0 [] hsep]
  rw [pySplitAux_no_marker s0 [] p.data [] p.data.length (Nat.le_refl _)
    (by
      intro t ht hsuf hpre
      obtain ⟨r, hr⟩ := hpre
      cases t with
      | nil => exact ht rfl
      | cons x t1 =>
        have hx : s0 = x := by
          have := hr
          simp only [List.singleton_append, List.cons.injEq] at this
          exact this.1
        exact hp (hsuf.subset (by simp [← hx])))]
  simp

/-- Splitting p ++ sep ++ t on the single-character separator sep cuts at the
first occurrence when p is separator-free. -/
theorem pySplit_cut (sep : String) (s0 : Char) (hsep : sep.data = [s0])
    (p t : String) (hp : s0 ∉ p.data) :
    pySplit sep (p ++ sep ++ t) = p :: pySplit sep t := by
  rw [pySplit_eq sep _ s0 [] hsep, pySplit_eq sep t s0 [] hsep]
  have hdata : (p ++ sep ++ t).data = p.data ++ [s0] ++ t.data := by
    rw [String.data_append, String.data_append, hsep]
  rw [hdata]
  rw [pySplitAux_first_marker s0 [] t.data p.data [] _ (Nat.le_refl _)
    (by
      intro t1 ht1 hsuf hpre
      obtain ⟨r, hr⟩ := hpre
      cases t1 with
      | nil => exact ht1 rfl
      | cons x t2 =>
        have hx : s0 = x := by
          have := hr
          simp only [List.singleton_append, List.cons_append, List.cons.injEq] at this
          exact this.1
        exact hp (hsuf.subset (by simp [← hx])))]
  simp

/-- Splitting the urlencoded string on '&' recovers the key=value pieces. -/
theorem pySplit_urlencode (ps : List (String × String)) (h : ps ≠ []) :
    pySplit "&" (urlencode ps) = ps.map pieceOf := by
  induction ps with
  | nil => exact absurd rfl h
  | cons kv rest ih =>
    cases rest with
    | nil =>
      show pySplit "&" (pieceOf kv) = [pieceOf kv]
      exact pySplit_one "&" '&' rfl (pieceOf kv) (fun hx => (piece_chars kv '&' hx).1 rfl)
    | cons kv2 rest2 =>
      show pySplit "&" (pieceOf kv ++ "&" ++ urlencode (kv2 :: rest2)) = _
      rw [pySplit_cut "&" '&' rfl _ _ (fun hx => (piece_chars kv '&' hx).1 rfl)]
      rw [ih (by simp)]
      rfl

/-- C8: construct_market_url is deterministic (a pure function of the
candidate and league id, unfolding to the fixed base URL with the urlencoded
control parameters and placeholder-substituted queries), its parameters can
be read back from the URL (pieces isBatchable=false, templateVars=<quoted
league id>, the two substituted queries, include=Events, entity=events), and
it is injective in the league id: distinct league ids give distinct URLs
because the encoded templateVars piece differs. -/
theorem claim_C8_url_construction :
    (∀ (q : MarketQuery) (league_id : String),
        construct_market_url q league_id =
          MARKET_URL_BASE ++ "?" ++ urlencode
            [("isBatchable", "false"), ("templateVars", league_id),
             ("eventsQuery", pyReplace "@page.leagueId" league_id
                (pyReplace "@leagueId" league_id q.eventsQuery)),
             ("marketsQuery", pyReplace "@page.leagueId" league_id
                (pyReplace "@leagueId" league_id q.marketsQuery)),
             ("include", "Events"), ("entity", "events")]) ∧
    (∀ (q : MarketQuery) (league_id : String),
        urlParams (construct_market_url q league_id) =
          ["isBatchable=false",
           "templateVars=" ++ quote_plus league_id,
           "eventsQuery=" ++ quote_plus (pyReplace "@page.leagueId" league_id
              (pyReplace "@leagueId" league_id q.eventsQuery)),
           "marketsQuery=" ++ quote_plus (pyReplace "@page.leagueId" league_id
              (pyReplace "@leagueId" league_id q.marketsQuery)),
           "include=Events", "entity=events"]) ∧
    (∀ (q : MarketQuery) (l1 l2 : String), l1 ≠ l2 →
        construct_market_url q l1 ≠ construct_market_url q l2) := by
  have ekey : ∀ (k pre : String), quote_plus k ++ "=" = pre →
      ∀ v, pieceOf (k, v) = pre ++ quote_plus v := by
    intro k pre hk v
    show quote_plus k ++ "=" ++ quote_plus v = _
    rw [hk]
  have part2 : ∀ (q : MarketQuery) (league_id : String),
      urlParams (construct_market_url q league_id) =
        ["isBatchable=false",
         "templateVars=" ++ quote_plus league_id,
         "eventsQuery=" ++ quote_plus (pyReplace "@page.leagueId" league_id
            (pyReplace "@leagueId" league_id q.eventsQuery)),
         "marketsQuery=" ++ quote_plus (pyReplace "@page.leagueId" league_id
            (pyReplace "@leagueId" league_id q.marketsQuery)),
         "include=Events", "entity=events"] := by
    intro q league_id
    show urlParams (MARKET_URL_BASE ++ "?" ++ urlencode
      [("isBatchable", "false"), ("templateVars", league_id),
       ("eventsQuery", pyReplace "@page.leagueId" league_id
          (pyReplace "@leagueId" league_id q.eventsQuery)),
       ("marketsQuery", pyReplace "@page.leagueId" league_id
          (pyReplace "@leagueId" league_id q.marketsQuery)),
       ("include", "Events"), ("entity", "events")]) = _
    unfold urlParams
    rw [pySplit_cut "?" '?' rfl MARKET_URL_BASE _ (by decide)]
    rw [pySplit_one "?" '?' rfl _ (fun hx => urlencode_chars _ '?' hx rfl)]
    show pySplit "&" (urlencode
      [("isBatchable", "false"), ("templateVars", league_id),
       ("eventsQuery", pyReplace "@page.leagueId" league_id
          (pyReplace "@leagueId" league_id q.eventsQuery)),
       ("marketsQuery", pyReplace "@page.leagueId" league_id
          (pyReplace "@leagueId" league_id q.marketsQuery)),
       ("include", "Events"), ("entity", "events")]) = _
    rw [pySplit_urlencode _ (by simp)]
    simp only [List.map_cons, List.map_nil]
    rw [show pieceOf ("isBatchable", "false") = "isBatchable=false" from by decide]
    rw [ekey "templateVars" "templateVars=" (by decide)]
    rw [ekey "eventsQuery" "eventsQuery=" (by decide)]
    rw [ekey "marketsQuery" "marketsQuery=" (by decide)]
    rw [show pieceOf ("include", "Events") = "include=Events" from by decide]
    rw [show pieceOf ("entity", "events") = "entity=events" from by decide]
  refine ⟨fun q league_id => rfl, part2, ?_⟩
  intro q l1 l2 hne h
  have hp := congrArg urlParams h
  rw [part2 q l1, part2 q l2] at hp
  simp only [List.cons.injEq, and_true] at hp
  have h1 : "templateVars=" ++ quote_plus l1 = "templateVars=" ++ quote_plus l2 :=
    hp.2.1
  have h2 : (quote_plus l1).data = (quote_plus l2).data := by
    have hd := congrArg String.data h1
    rw [String.data_append, String.data_append] at hd
    exact List.append_cancel_left hd
  exact hne (quote_plus_inj l1 l2 (string_data_inj _ _ h2))

/-- Witness for claim C8: the parameter read-back at a concrete candidate and
league id, and distinct league ids giving distinct URLs. -/
theorem claim_C8_witness :
    urlParams (construct_market_url c8Query "7") =
      ["isBatchable=false",
       "templateVars=" ++ quote_plus "7",
       "eventsQuery=" ++ quote_plus (pyReplace "@page.leagueId" "7"
          (pyReplace "@leagueId" "7" c8Query.eventsQuery)),
       "marketsQuery=" ++ quote_plus (pyReplace "@page.leagueId" "7"
          (pyReplace "@leagueId" "7" c8Query.marketsQuery)),
       "include=Events", "entity=events"] ∧
    quote_plus (pyReplace "@page.leagueId" "7"
        (pyReplace "@leagueId" "7" c8Query.eventsQuery)) = "e+7+x" ∧
    construct_market_url c8Query "1" ≠ construct_market_url c8Query "2" :=
  ⟨claim_C8_url_construction.2.1 c8Query "7",
   by decide,
   claim_C8_url_construction.2.2 c8Query "1" "2" (by decide)⟩

end BettingMkt
